import Mathlib

/-!
Shallow embedding of the CrashDataRefiner core (src/crash_data_refiner/refiner.py
and src/crash_data_refiner/geo.py) and proofs about the spec's claims.

Python scalar cell values (str | int | float | bool | None) are embedded as the
`Value` type, with floats idealized as exact rationals.  Rows (Python dicts) are
embedded as association lists with Python-dict update semantics (update keeps
position, new keys append).  Python functions that can raise are embedded as
`Except String` / `Option` valued functions; a `.error`/`none` result models an
uncaught Python exception.
-/

namespace CrashData

/-- Exact-rational idealization of a Python float: an unreduced fraction with
positive denominator (every operation below keeps the denominator positive).
A plain pair of machine-style integers is used instead of `Rat` so that every
arithmetic step is kernel-computable (no gcd normalization). -/
structure PyFloat where
  num : Int
  den : Nat
deriving DecidableEq, Repr

/-- Value of an integer as a float. -/
def PyFloat.ofInt (n : Int) : PyFloat := ⟨n, 1⟩

/-- Fraction addition (no reduction). -/
def qAdd (a b : PyFloat) : PyFloat :=
  ⟨a.num * b.den + b.num * a.den, a.den * b.den⟩

/-- Fraction subtraction. -/
def qSub (a b : PyFloat) : PyFloat :=
  ⟨a.num * b.den - b.num * a.den, a.den * b.den⟩

/-- Fraction multiplication. -/
def qMul (a b : PyFloat) : PyFloat :=
  ⟨a.num * b.num, a.den * b.den⟩

/-- Fraction division; `none` models Python raising `ZeroDivisionError` when
the divisor is exactly zero.  In the one place the source divides — the
ray-casting test — the `1e-12`-guarded denominator is exactly zero precisely
when the edge's latitude delta is `-1e-12`, which is reachable, so the raise
must be modelled. -/
def qDiv? (a b : PyFloat) : Option PyFloat :=
  if 0 < b.num then some ⟨a.num * b.den, a.den * b.num.toNat⟩
  else if b.num < 0 then some ⟨-(a.num * b.den), a.den * (-b.num).toNat⟩
  else none

/-- Comparison `a < b` by cross multiplication (denominators positive). -/
def qLt (a b : PyFloat) : Bool :=
  a.num * b.den < b.num * a.den

/-- Comparison `a ≤ b`. -/
def qLe (a b : PyFloat) : Bool :=
  a.num * b.den ≤ b.num * a.den

/-- Value equality of fractions (Python `==` on floats). -/
def qEqb (a b : PyFloat) : Bool :=
  a.num * b.den = b.num * a.den

/-- Python `min` over floats. -/
def qMin (a b : PyFloat) : PyFloat := if qLe a b then a else b

/-- Python `max` over floats. -/
def qMax (a b : PyFloat) : PyFloat := if qLe a b then b else a

/-- Embedding of a Python scalar cell value. `float` is idealized as an exact
rational (the IEEE rounding of parsed literals is not modelled). -/
inductive Value where
  | null
  | str (s : String)
  | int (n : Int)
  | float (q : PyFloat)
  | bool (b : Bool)
deriving DecidableEq, Repr

/-- A Python dict row: association list of header to value.  Well-formed rows
built by the engine never hold duplicate keys (`rowSet` updates in place). -/
abbrev Row := List (String × Value)

/-- Python `row.get(k)`: first binding for `k`, if any. -/
def rowGet : Row → String → Option Value
  | [], _ => none
  | (k', v) :: rest, k => if k' = k then some v else rowGet rest k

/-- Python `row.get(k)` where an absent key yields `None`. -/
def rowGetD (r : Row) (k : String) : Value :=
  (rowGet r k).getD .null

/-- Python `k in row`. -/
def rowHas (r : Row) (k : String) : Bool :=
  (rowGet r k).isSome

/-- Python `row[k] = v`: update the first binding in place, else append. -/
def rowSet : Row → String → Value → Row
  | [], k, v => [(k, v)]
  | (k', v') :: rest, k, v =>
    if k' = k then (k, v) :: rest else (k', v') :: rowSet rest k v

/-! ### Character-level string helpers

All Python string manipulation is embedded on `List Char` so every definition
reduces inside the kernel.  ASCII semantics are used for case conversion and
digit tests; the repository's vocabularies (headers, tokens, formats) are
ASCII. -/

/-- Characters matched by the regex class `[0-9a-zA-Z]`. -/
def isAlnumAscii (c : Char) : Bool :=
  c.isDigit || (('a' ≤ c && c ≤ 'z') || ('A' ≤ c && c ≤ 'Z'))

/-- Python `str.strip()` (whitespace on both ends) on a char list. -/
def stripChars (cs : List Char) : List Char :=
  ((cs.dropWhile Char.isWhitespace).reverse.dropWhile Char.isWhitespace).reverse

/-- Python `str.strip()`. -/
def pyStrip (s : String) : String :=
  String.mk (stripChars s.data)

/-- Python `str.lower()` (ASCII range, as in the source's vocabulary). -/
def pyLower (s : String) : String :=
  String.mk (s.data.map Char.toLower)

/-- Python `str.upper()` (ASCII range). -/
def pyUpper (s : String) : String :=
  String.mk (s.data.map Char.toUpper)

/-- Generic splitter: maximal runs of non-separator characters, empty tokens
dropped.  With `Char.isWhitespace` this is Python `str.split()`. -/
def splitByAux (p : Char → Bool) : List Char → List Char → List String
  | [], acc => if acc.isEmpty then [] else [String.mk acc.reverse]
  | c :: cs, acc =>
    if p c then
      if acc.isEmpty then splitByAux p cs []
      else String.mk acc.reverse :: splitByAux p cs []
    else splitByAux p cs (c :: acc)

/-- Python `str.split()` (split on whitespace runs, no empty tokens). -/
def pySplitWs (s : String) : List String :=
  splitByAux Char.isWhitespace s.data []

/-- Python `str.split(",")` (keeps empty parts). -/
def splitCommaAux : List Char → List Char → List String
  | [], acc => [String.mk acc.reverse]
  | c :: cs, acc =>
    if c = ',' then String.mk acc.reverse :: splitCommaAux cs []
    else splitCommaAux cs (c :: acc)

/-- Python `str.split(",")`. -/
def pySplitComma (s : String) : List String :=
  splitCommaAux s.data []

/-- Python `" ".join(tokens)`. -/
def joinSp : List String → String
  | [] => ""
  | [t] => t
  | t :: rest => t ++ " " ++ joinSp rest

/-- Collapse runs of `'_'` to a single `'_'` (regex `_{2,}` → `_`). -/
def squeezeUnderscores : List Char → List Char
  | [] => []
  | '_' :: '_' :: cs => squeezeUnderscores ('_' :: cs)
  | c :: cs => c :: squeezeUnderscores cs

/-- Drop `'_'` from both ends (Python `str.strip("_")`). -/
def stripUnderscores (cs : List Char) : List Char :=
  ((cs.dropWhile (· = '_')).reverse.dropWhile (· = '_')).reverse

/-- Embedding of `_normalize_header` (refiner.py): strip + lowercase, replace
runs of non-alphanumerics with `_`, collapse repeated `_`, strip `_`.
Replacing each non-alphanumeric with `_` and then collapsing runs yields the
same string as the source's run-replacement followed by run-collapsing. -/
def normalizeHeader (header : String) : String :=
  let lowered := (stripChars header.data).map Char.toLower
  let subbed := lowered.map fun c => if isAlnumAscii c then c else '_'
  String.mk (stripUnderscores (squeezeUnderscores subbed))

/-- Embedding of `CrashDataRefiner._normalize_row`: rebuild the dict with
normalized keys (later duplicates overwrite, first position kept — Python dict
comprehension semantics). -/
def normalizeRow (r : Row) : Row :=
  r.foldl (fun acc kv => rowSet acc (normalizeHeader kv.1) kv.2) []

/-- Embedding of `dict(raw_row)`: a fresh dict with the same items. -/
def copyRow (r : Row) : Row :=
  r.foldl (fun acc kv => rowSet acc kv.1 kv.2) []

/-! ### Date parsing (`_parse_date`, refiner.py)

`datetime.strptime` is embedded per CPython's `_strptime` regexes for the
directives the source's `_DATE_FORMATS` use (`%Y` exactly four digits; `%m`,
`%d`, `%H`, `%M`, `%S` one or two digits within the documented ranges; `%b`
case-insensitive month abbreviation; a space in the format matches a
whitespace run), followed by `datetime` constructor validation (day within
month, seconds at most 59). -/

/-- Numeric value of a decimal digit character. -/
def digitVal (c : Char) : Nat := c.toNat - '0'.toNat

/-- The regex `\d{4}-\d{2}-\d{2}(?:[T ]\d{2}:\d{2}(?::\d{2})?)?` of
`_parse_date`'s ISO fast path, as a full-string match. -/
def isoCheck : List Char → Bool
  | y1 :: y2 :: y3 :: y4 :: '-' :: m1 :: m2 :: '-' :: d1 :: d2 :: rest =>
    ([y1, y2, y3, y4, m1, m2, d1, d2].all Char.isDigit) &&
    (match rest with
     | [] => true
     | sep :: h1 :: h2 :: ':' :: n1 :: n2 :: rest2 =>
       (sep = 'T' || sep = ' ') && ([h1, h2, n1, n2].all Char.isDigit) &&
       (match rest2 with
        | [] => true
        | [':', s1, s2] => s1.isDigit && s2.isDigit
        | _ => false)
     | _ => false)
  | _ => false

/-- Parsed `strptime` fields; absent time fields stay zero. -/
structure DT where
  y : Nat
  m : Nat
  d : Nat
  hh : Nat := 0
  mm : Nat := 0
  ss : Nat := 0
deriving DecidableEq, Repr

/-- `%Y`: exactly four digits. -/
def pY : List Char → List (Nat × List Char)
  | a :: b :: c :: d :: rest =>
    if a.isDigit && b.isDigit && c.isDigit && d.isDigit then
      [(((digitVal a * 10 + digitVal b) * 10 + digitVal c) * 10 + digitVal d, rest)]
    else []
  | _ => []

/-- A two-digit-or-one-digit numeric directive: candidates in the regex's
alternation order (two digits in `[lo2, hi2]` first, then one digit in
`[lo1, hi1]`). -/
def p2or1 (lo2 hi2 lo1 hi1 : Nat) (cs : List Char) : List (Nat × List Char) :=
  (match cs with
   | a :: b :: rest =>
     if a.isDigit && b.isDigit then
       let v := digitVal a * 10 + digitVal b
       if lo2 ≤ v && v ≤ hi2 then [(v, rest)] else []
     else []
   | _ => []) ++
  (match cs with
   | a :: rest =>
     if a.isDigit then
       let v := digitVal a
       if lo1 ≤ v && v ≤ hi1 then [(v, rest)] else []
     else []
   | _ => [])

/-- `%m` (regex `1[0-2]|0[1-9]|[1-9]`). -/
def pM (cs : List Char) : List (Nat × List Char) := p2or1 1 12 1 9 cs

/-- `%d` (regex `3[01]|[12]\d|0[1-9]|[1-9]`). -/
def pD (cs : List Char) : List (Nat × List Char) := p2or1 1 31 1 9 cs

/-- `%H` (regex `2[0-3]|[0-1]\d|\d`). -/
def pH (cs : List Char) : List (Nat × List Char) := p2or1 0 23 0 9 cs

/-- `%M` (regex `[0-5]\d|\d`). -/
def pMin (cs : List Char) : List (Nat × List Char) := p2or1 0 59 0 9 cs

/-- `%S` (regex `6[0-1]|[0-5]\d|\d`). -/
def pS (cs : List Char) : List (Nat × List Char) := p2or1 0 61 0 9 cs

/-- Month abbreviations recognized by `%b` (matched case-insensitively). -/
def monthAbbrevs : List (List Char × Nat) :=
  [(['j','a','n'], 1), (['f','e','b'], 2), (['m','a','r'], 3), (['a','p','r'], 4),
   (['m','a','y'], 5), (['j','u','n'], 6), (['j','u','l'], 7), (['a','u','g'], 8),
   (['s','e','p'], 9), (['o','c','t'], 10), (['n','o','v'], 11), (['d','e','c'], 12)]

/-- `%b`. -/
def pB : List Char → List (Nat × List Char)
  | a :: b :: c :: rest =>
    match monthAbbrevs.find? (fun p => p.1 = [a.toLower, b.toLower, c.toLower]) with
    | some p => [(p.2, rest)]
    | none => []
  | _ => []

/-- A literal separator character of the format. -/
def pLit (ch : Char) : List Char → List (List Char)
  | c :: rest => if c = ch then [rest] else []
  | _ => []

/-- A whitespace run in the format (`_strptime` compiles format whitespace to
`\s+`; greedy consumption is exact here because every following directive
starts with a digit). -/
def pWs : List Char → List (List Char)
  | c :: rest => if c.isWhitespace then [rest.dropWhile Char.isWhitespace] else []
  | _ => []

/-- Format `%Y-%m-%d`. -/
def fmtYmd (cs : List Char) : List DT :=
  (pY cs).flatMap fun (y, r1) =>
  (pLit '-' r1).flatMap fun r2 =>
  (pM r2).flatMap fun (m, r3) =>
  (pLit '-' r3).flatMap fun r4 =>
  (pD r4).flatMap fun (d, r5) =>
  if r5.isEmpty then [{ y := y, m := m, d := d }] else []

/-- Time tail ` %H:%M` resumed after a date part. -/
def tailHM (cs : List Char) : List (Nat × Nat) :=
  (pWs cs).flatMap fun r1 =>
  (pH r1).flatMap fun (h, r2) =>
  (pLit ':' r2).flatMap fun r3 =>
  (pMin r3).flatMap fun (mi, r4) =>
  if r4.isEmpty then [(h, mi)] else []

/-- Time tail ` %H:%M:%S` resumed after a date part. -/
def tailHMS (cs : List Char) : List (Nat × Nat × Nat) :=
  (pWs cs).flatMap fun r1 =>
  (pH r1).flatMap fun (h, r2) =>
  (pLit ':' r2).flatMap fun r3 =>
  (pMin r3).flatMap fun (mi, r4) =>
  (pLit ':' r4).flatMap fun r5 =>
  (pS r5).flatMap fun (s, r6) =>
  if r6.isEmpty then [(h, mi, s)] else []

/-- Shared date prefix `%Y-%m-%d` with an arbitrary remainder. -/
def headYmd (cs : List Char) : List (DT × List Char) :=
  (pY cs).flatMap fun (y, r1) =>
  (pLit '-' r1).flatMap fun r2 =>
  (pM r2).flatMap fun (m, r3) =>
  (pLit '-' r3).flatMap fun r4 =>
  (pD r4).flatMap fun (d, r5) =>
  [({ y := y, m := m, d := d }, r5)]

/-- Format `%Y-%m-%d %H:%M`. -/
def fmtYmdHM (cs : List Char) : List DT :=
  (headYmd cs).flatMap fun (dt, r) =>
  (tailHM r).map fun (h, mi) => { dt with hh := h, mm := mi }

/-- Format `%Y-%m-%d %H:%M:%S`. -/
def fmtYmdHMS (cs : List Char) : List DT :=
  (headYmd cs).flatMap fun (dt, r) =>
  (tailHMS r).map fun (h, mi, s) => { dt with hh := h, mm := mi, ss := s }

/-- Shared date prefix `%m/%d/%Y` with an arbitrary remainder. -/
def headMdY (cs : List Char) : List (DT × List Char) :=
  (pM cs).flatMap fun (m, r1) =>
  (pLit '/' r1).flatMap fun r2 =>
  (pD r2).flatMap fun (d, r3) =>
  (pLit '/' r3).flatMap fun r4 =>
  (pY r4).flatMap fun (y, r5) =>
  [({ y := y, m := m, d := d }, r5)]

/-- Format `%m/%d/%Y`. -/
def fmtMdY (cs : List Char) : List DT :=
  (headMdY cs).flatMap fun (dt, r) => if r.isEmpty then [dt] else []

/-- Format `%m/%d/%Y %H:%M`. -/
def fmtMdYHM (cs : List Char) : List DT :=
  (headMdY cs).flatMap fun (dt, r) =>
  (tailHM r).map fun (h, mi) => { dt with hh := h, mm := mi }

/-- Format `%m/%d/%Y %H:%M:%S`. -/
def fmtMdYHMS (cs : List Char) : List DT :=
  (headMdY cs).flatMap fun (dt, r) =>
  (tailHMS r).map fun (h, mi, s) => { dt with hh := h, mm := mi, ss := s }

/-- Format `%d-%b-%Y`. -/
def fmtDbY (cs : List Char) : List DT :=
  (pD cs).flatMap fun (d, r1) =>
  (pLit '-' r1).flatMap fun r2 =>
  (pB r2).flatMap fun (m, r3) =>
  (pLit '-' r3).flatMap fun r4 =>
  (pY r4).flatMap fun (y, r5) =>
  if r5.isEmpty then [{ y := y, m := m, d := d }] else []

/-- Gregorian leap year. -/
def isLeapYear (y : Nat) : Bool :=
  y % 4 = 0 && (y % 100 ≠ 0 || y % 400 = 0)

/-- Length of a month. -/
def daysInMonth (y m : Nat) : Nat :=
  if m = 2 then (if isLeapYear y then 29 else 28)
  else if m = 4 || m = 6 || m = 9 || m = 11 then 30
  else 31

/-- The `datetime` constructor's validation (fields the directive regexes do
not already bound): year at least 1, day within the month, seconds at most
59. -/
def validDT (t : DT) : Bool :=
  1 ≤ t.y && t.d ≤ daysInMonth t.y t.m && t.ss ≤ 59

/-- Zero-padded two-digit field (`strftime` `%m`, `%d`, `%H`, `%M`, `%S`). -/
def pad2 (n : Nat) : String :=
  if n < 10 then "0" ++ toString n else toString n

/-- Four-digit year field. -/
def pad4 (n : Nat) : String :=
  if n < 10 then "000" ++ toString n
  else if n < 100 then "00" ++ toString n
  else if n < 1000 then "0" ++ toString n
  else toString n

/-- `strftime("%Y-%m-%d")`. -/
def strftimeDate (t : DT) : String :=
  pad4 t.y ++ "-" ++ pad2 t.m ++ "-" ++ pad2 t.d

/-- `strftime("%Y-%m-%d %H:%M:%S")`. -/
def strftimeDateTime (t : DT) : String :=
  strftimeDate t ++ " " ++ pad2 t.hh ++ ":" ++ pad2 t.mm ++ ":" ++ pad2 t.ss

/-- Outcome of one `strptime` attempt: `none` re-raises `ValueError` (either no
regex match or constructor validation failure), so the caller's loop moves to
the next format. -/
def runFmt (cands : List DT) (hasTime : Bool) : Option String :=
  match cands with
  | [] => none
  | dt :: _ =>
    if validDT dt then
      some (if hasTime then strftimeDateTime dt else strftimeDate dt)
    else none

/-- The `for fmt in _DATE_FORMATS` loop of `_parse_date`: first format that
parses and validates wins; date-only formats emit `YYYY-MM-DD`, the others
`YYYY-MM-DD HH:MM:SS`. -/
def tryFormats (text : String) : Option String :=
  let cs := text.data
  (runFmt (fmtYmd cs) false) <|>
  (runFmt (fmtYmdHM cs) true) <|>
  (runFmt (fmtYmdHMS cs) true) <|>
  (runFmt (fmtMdY cs) false) <|>
  (runFmt (fmtMdYHM cs) true) <|>
  (runFmt (fmtMdYHMS cs) true) <|>
  (runFmt (fmtDbY cs) false)

/-- Embedding of `_parse_date` on a string argument (the `value is None` branch
is handled at the call site; calling it on a non-string raises, see
`dateColumnStep`).  Returns `none` for `None` output, `some` for a string. -/
def pyParseDateStr (value : String) : Option String :=
  let text := pyStrip value
  if text = "" then none
  else if isoCheck text.data then
    some (String.mk (text.data.map fun c => if c = 'T' then ' ' else c))
  else
    match tryFormats text with
    | some out => some out
    | none => some text

/-! ### Numeric and boolean coercion (`_coerce_numeric`, `_coerce_boolean`) -/

/-- A run of decimal digits with single underscores strictly between digits
(PEP 515), consumed to the end; `none` when empty or malformed. -/
def undDigitsAux : List Char → Nat → Bool → Option Nat
  | [], acc, lastDigit => if lastDigit then some acc else none
  | c :: cs, acc, lastDigit =>
    if c.isDigit then undDigitsAux cs (acc * 10 + digitVal c) true
    else if c = '_' then
      if lastDigit then undDigitsAux cs acc false else none
    else none

/-- Value of a full underscore-grouped digit run. -/
def undDigitsVal (cs : List Char) : Option Nat :=
  undDigitsAux cs 0 false

/-- Embedding of Python `int(text)` on a string: optional sign then an
underscore-grouped digit run (surrounding whitespace allowed). -/
def pyIntOfString? (s : String) : Option Int :=
  let cs := stripChars s.data
  match cs with
  | '-' :: rest => (undDigitsVal rest).map fun n => -(n : Int)
  | '+' :: rest => (undDigitsVal rest).map fun n => (n : Int)
  | _ => (undDigitsVal cs).map fun n => (n : Int)

/-- Embedding of Python `float(text)` on a string, idealized over the
rationals: sign, mantissa `digits[.digits]`/`.digits`/`digits.`, optional
exponent, underscore grouping.  The IEEE rounding of the parsed literal and
the `inf`/`infinity`/`nan` spellings fall outside the rational model (no
theorem below evaluates those cases). -/
def pyFloatOfString? (s : String) : Option PyFloat :=
  let cs := stripChars s.data
  let signed : Bool × List Char :=
    match cs with
    | '-' :: r => (true, r)
    | '+' :: r => (false, r)
    | _ => (false, cs)
  let neg := signed.1
  let body := signed.2
  let mantExp := body.span fun c => !(c == 'e' || c == 'E')
  let mant := mantExp.1
  let expVal? : Option Int :=
    match mantExp.2 with
    | [] => some 0
    | _ :: er =>
      match er with
      | '-' :: r2 => (undDigitsVal r2).map fun n => -(n : Int)
      | '+' :: r2 => (undDigitsVal r2).map fun n => (n : Int)
      | r2 => (undDigitsVal r2).map fun n => (n : Int)
  match expVal? with
  | none => none
  | some e =>
    let ipFp := mant.span fun c => !(c == '.')
    let ip := ipFp.1
    let mantVal? : Option (Nat × Nat) :=
      match ipFp.2 with
      | [] => (undDigitsVal ip).map fun i => (i, 0)
      | _ :: fp =>
        match ip, fp with
        | [], [] => none
        | [], _ => (undDigitsVal fp).map fun f => (f, fp.countP Char.isDigit)
        | _, [] => (undDigitsVal ip).map fun i => (i, 0)
        | _, _ =>
          match undDigitsVal ip, undDigitsVal fp with
          | some i, some f =>
            some (i * 10 ^ fp.countP Char.isDigit + f, fp.countP Char.isDigit)
          | _, _ => none
    match mantVal? with
    | none => none
    | some (num, k) =>
      let q : PyFloat :=
        match e with
        | .ofNat n => ⟨(num : Int) * 10 ^ n, 10 ^ k⟩
        | .negSucc n => ⟨(num : Int), 10 ^ k * 10 ^ (n + 1)⟩
      some (if neg then ⟨-q.num, q.den⟩ else q)

/-- Python type names, for modelled exception messages. -/
def pyTypeName : Value → String
  | .null => "NoneType"
  | .str _ => "str"
  | .int _ => "int"
  | .float _ => "float"
  | .bool _ => "bool"

/-- Python `repr`/`str` of a float, for rationals with a finite decimal
expansion (every IEEE float has one).  Python prints the shortest string that
round-trips through the binary float; that rounding is outside the rational
model, so this prints the exact expansion (integers print as `n.0` exactly as
Python does).  No theorem below evaluates the non-decimal fallback. -/
def pyReprFloat (q : PyFloat) : String :=
  if q.den = 1 then toString q.num ++ ".0"
  else
    match ((List.range 64).map (· + 1)).find? (fun k => q.den ∣ 10 ^ k) with
    | some k =>
      let scaled : Nat := q.num.natAbs * (10 ^ k / q.den)
      let digits := (toString scaled).data
      let digits :=
        if digits.length ≤ k then List.replicate (k + 1 - digits.length) '0' ++ digits
        else digits
      let n := digits.length
      (if q.num < 0 then "-" else "") ++
        String.mk (digits.take (n - k)) ++ "." ++ String.mk (digits.drop (n - k))
    | none => toString q.num ++ "/" ++ toString q.den

/-- Python `str(value)` on a scalar. -/
def pyStr : Value → String
  | .null => "None"
  | .str s => s
  | .int n => toString n
  | .float q => pyReprFloat q
  | .bool b => if b then "True" else "False"

/-- Numeric view used by Python `==`: `bool` is an `int` subclass, and
`int`/`float` compare by value. -/
def valueAsQ? : Value → Option PyFloat
  | .int n => some (PyFloat.ofInt n)
  | .float q => some q
  | .bool b => some (PyFloat.ofInt (if b then 1 else 0))
  | _ => none

/-- Python `==` on scalar cell values. -/
def pyEq (a b : Value) : Bool :=
  match valueAsQ? a, valueAsQ? b with
  | some x, some y => qEqb x y
  | _, _ =>
    match a, b with
    | .null, .null => true
    | .str s, .str t => s = t
    | _, _ => false

/-- Embedding of `_coerce_numeric(value, int)`: `None` stays `None`, otherwise
`int(str(value).strip())` with failures swallowed to `None`. -/
def pyCoerceNumericInt (v : Value) : Option Int :=
  match v with
  | .null => none
  | _ =>
    let text := pyStrip (pyStr v)
    if text = "" then none else pyIntOfString? text

/-- Embedding of `_coerce_numeric(value, float)`. -/
def pyCoerceNumericFloat (v : Value) : Option PyFloat :=
  match v with
  | .null => none
  | _ =>
    let text := pyStrip (pyStr v)
    if text = "" then none else pyFloatOfString? text

/-- Embedding of `_coerce_boolean`. -/
def pyCoerceBoolean (v : Value) : Option Bool :=
  match v with
  | .null => none
  | _ =>
    let text := pyLower (pyStrip (pyStr v))
    if ["true", "t", "1", "yes", "y"].contains text then some true
    else if ["false", "f", "0", "no", "n"].contains text then some false
    else none

/-! ### Name standardization (crash type and roadway name, refiner.py) -/

/-- `_CRASH_TYPE_COLUMNS` (a Python set; iteration order is immaterial because
each column is processed independently). -/
def CRASH_TYPE_COLUMNS : List String :=
  ["crash_type", "manner_of_collision", "collision_type", "collision_manner"]

/-- `_ROUTE_COLUMNS`. -/
def ROUTE_COLUMNS : List String :=
  ["route", "roadway_name", "roadway_id", "road_name", "street_name",
   "roadway_number", "roadway_suffix", "intersecting_road_name",
   "intersecting_road_number"]

/-- `_CRASH_TYPE_CANONICAL`. -/
def CRASH_TYPE_CANONICAL : List (String × String) :=
  [("rear end", "Rear End"), ("rearend", "Rear End"),
   ("head on", "Head On"), ("headon", "Head On"),
   ("left turn", "Left Turn"), ("right turn", "Right Turn"),
   ("sideswipe same direction", "Same Direction Sideswipe"),
   ("same direction sideswipe", "Same Direction Sideswipe"),
   ("sideswipe opposite direction", "Opposite Direction Sideswipe"),
   ("opposite direction sideswipe", "Opposite Direction Sideswipe"),
   ("backing", "Backing Crash"), ("backing crash", "Backing Crash")]

/-- `_ROUTE_TOKEN_MAP`. -/
def ROUTE_TOKEN_MAP : List (String × String) :=
  [("AVENUE", "AVE"), ("BOULEVARD", "BLVD"), ("CIRCLE", "CIR"), ("COURT", "CT"),
   ("DRIVE", "DR"), ("EAST", "E"), ("EASTBOUND", "E"), ("EB", "E"),
   ("EXPRESSWAY", "EXPY"), ("FREEWAY", "FWY"), ("FORT", "FT"),
   ("HIGHWAY", "HWY"), ("INTERSTATE", "I"), ("JUNCTION", "JCT"),
   ("LANE", "LN"), ("MOUNT", "MT"), ("NORTH", "N"), ("NORTHBOUND", "N"),
   ("NB", "N"), ("PARKWAY", "PKWY"), ("PLACE", "PL"), ("ROAD", "RD"),
   ("SOUTH", "S"), ("SOUTHBOUND", "S"), ("SB", "S"), ("SQUARE", "SQ"),
   ("STREET", "ST"), ("TURNPIKE", "TPKE"), ("TRAIL", "TRL"),
   ("WEST", "W"), ("WESTBOUND", "W"), ("WB", "W")]

/-- `_ROUTE_MULTI_TOKENS` (ordered; the collapse loop takes the first match). -/
def ROUTE_MULTI_TOKENS : List (List String × String) :=
  [(["U", "S", "ROUTE"], "US"), (["U", "S", "HWY"], "US"),
   (["U", "S", "HIGHWAY"], "US"), (["US", "ROUTE"], "US"),
   (["US", "HWY"], "US"), (["US", "HIGHWAY"], "US"), (["U", "S"], "US"),
   (["STATE", "ROAD"], "SR"), (["STATE", "ROUTE"], "SR"),
   (["STATE", "RD"], "SR"), (["STATE", "HWY"], "SR"),
   (["STATE", "HIGHWAY"], "SR"), (["ST", "RD"], "SR"), (["ST", "ROAD"], "SR"),
   (["S", "R"], "SR"), (["COUNTY", "ROAD"], "CR"), (["COUNTY", "RD"], "CR"),
   (["CO", "RD"], "CR")]

/-- `_DIRECTION_TOKENS`. -/
def DIRECTION_TOKENS : List String :=
  ["N", "S", "E", "W", "NE", "NW", "SE", "SW", "NB", "SB", "EB", "WB"]

/-- `_ROUTE_PREFIX_TOKENS`. -/
def ROUTE_PREFIX_TOKENS : List String := ["SR", "US", "I", "CR"]

/-- `_ROUTE_SUFFIX_TOKENS`. -/
def ROUTE_SUFFIX_TOKENS : List String :=
  ["AVE", "BLVD", "CIR", "CT", "DR", "EXPY", "FWY", "HWY", "JCT", "LN",
   "PKWY", "PL", "RD", "SQ", "ST", "TPKE", "TRL"]

/-- First-match association lookup (Python dict `get`). -/
def assocLookup : List (String × String) → String → Option String
  | [], _ => none
  | (k, v) :: rest, b => if k = b then some v else assocLookup rest b

/-- Embedding of `_strip_direction_tokens`. -/
def stripDirectionTokens (ts : List String) : List String :=
  ((ts.dropWhile (DIRECTION_TOKENS.contains ·)).reverse.dropWhile
    (DIRECTION_TOKENS.contains ·)).reverse

/-- Embedding of `_is_numeric_token` (`str.isdigit`: nonempty, all digits). -/
def isNumericToken (t : String) : Bool :=
  !t.data.isEmpty && t.data.all Char.isDigit

/-- Embedding of `_is_route_number`. -/
def isRouteNumber (tokens : List String) : Bool :=
  tokens.any (ROUTE_PREFIX_TOKENS.contains ·) || tokens.any isNumericToken

/-- Embedding of `_standardize_crash_type`. -/
def standardizeCrashType (v : Value) : Value :=
  match v with
  | .str s =>
    let text := pyStrip s
    if text = "" then v
    else
      -- regex `[^0-9a-zA-Z]+` → " ", then `\s+` → " ", then strip: the
      -- surviving content is the alphanumeric tokens joined by single spaces.
      let toks := splitByAux (fun c => !isAlnumAscii c) text.data []
      if toks.isEmpty then v
      else
        let normalized := pyLower (joinSp toks)
        match assocLookup CRASH_TYPE_CANONICAL normalized with
        | some canon => .str canon
        | none =>
          -- title case each word (`str.capitalize`: head upper, rest lower)
          .str (joinSp ((pySplitWs normalized).map fun w =>
            match w.data with
            | [] => ""
            | c :: cs => String.mk (c.toUpper :: cs.map Char.toLower)))
  | _ => v

/-- First multi-token table entry matching a prefix of `ts` (the source loop
breaks on the first match). -/
def findMultiMatch (ts : List String) : Option (Nat × String) :=
  (ROUTE_MULTI_TOKENS.find? fun pr => ts.take pr.1.length = pr.1).map
    fun pr => (pr.1.length, pr.2)

/-- The collapse loop of `_standardize_route`, on explicit fuel so the
recursion is structural (each step consumes at least one token, so fuel equal
to the token count never runs out; the zero-fuel equation is unreachable). -/
def collapseTokensAux : Nat → List String → List String
  | _, [] => []
  | 0, _ => []
  | fuel + 1, t :: rest =>
    if t = "IN" && (match rest with
                    | n :: _ => isNumericToken n
                    | [] => false) then
      "SR" :: collapseTokensAux fuel rest
    else
      match findMultiMatch (t :: rest) with
      | some (len, repl) => repl :: collapseTokensAux fuel (rest.drop (len - 1))
      | none => t :: collapseTokensAux fuel rest

/-- The collapse loop of `_standardize_route`: a bare `IN` directly before a
numeric token becomes `SR` (consuming only the `IN`), otherwise the first
matching `_ROUTE_MULTI_TOKENS` sequence collapses to its abbreviation,
otherwise the token is kept. -/
def collapseTokens (ts : List String) : List String :=
  collapseTokensAux ts.length ts

/-- Embedding of `_standardize_route`.  The source deletes dots and commas,
turns runs of hyphens and slashes into single spaces, collapses whitespace
runs and strips; mapping each hyphen and slash to a space first and then
collapsing whitespace yields the same cleaned string, and `cleaned` is empty
exactly when the upper-cased token list is empty. -/
def standardizeRoute (v : Value) : Value :=
  match v with
  | .str s =>
    let text := pyStrip s
    if text = "" then v
    else
      let noPunct := text.data.filter fun c => !(c == '.' || c == ',')
      let spaced := noPunct.map fun c => if c == '-' || c == '/' then ' ' else c
      let tokens := pySplitWs (pyUpper (String.mk spaced))
      if tokens.isEmpty then v
      else
        let collapsed := collapseTokens tokens
        let normalized := collapsed.map fun t => (assocLookup ROUTE_TOKEN_MAP t).getD t
        let normalized :=
          if normalized.contains "HWY" &&
             normalized.any (ROUTE_PREFIX_TOKENS.contains ·) then
            normalized.filter (· ≠ "HWY")
          else normalized
        .str (joinSp (stripDirectionTokens normalized))
  | _ => v

/-! ### Pass 2: dataset-wide route-suffix learning
(`_preferred_route_suffixes`, `_apply_route_suffixes`) -/

/-- One cell's contribution to the suffix tally of `_preferred_route_suffixes`:
a `(base, suffix)` observation when the value is a string whose tokens are not
a route number, end in a recognized suffix, and leave a nonempty base. -/
def obsOfCell : Option Value → Option (String × String)
  | some (.str v) =>
    let ts := pySplitWs v
    match ts.getLast? with
    | none => none
    | some last =>
      if isRouteNumber ts then none
      else if ROUTE_SUFFIX_TOKENS.contains last then
        let base := joinSp ts.dropLast
        if base = "" then none else some (base, last)
      else none
  | _ => none

/-- All `(base, suffix)` observations across the dataset (the per-`Counter`
tallies of the source, flattened; only the set of distinct suffixes per base
matters for `len(counts) == 1`). -/
def suffixObs (rows : List Row) : List (String × String) :=
  rows.flatMap fun row => ROUTE_COLUMNS.filterMap fun c => obsOfCell (rowGet row c)

/-- The distinct suffixes observed for one base name (the `Counter`'s key
set). -/
def distinctSuffixes (rows : List Row) (base : String) : List String :=
  (((suffixObs rows).filter fun p => p.1 = base).map Prod.snd).dedup

/-- `preferred[base]` of `_preferred_route_suffixes`: defined exactly when one
distinct suffix was observed. -/
def preferredOf (rows : List Row) (base : String) : Option String :=
  match distinctSuffixes rows base with
  | [s] => some s
  | _ => none

/-- The base names appearing in the tally. -/
def obsBases (rows : List Row) : List String :=
  ((suffixObs rows).map Prod.fst).dedup

/-- The `preferred` dict of `_preferred_route_suffixes` as an association
list. -/
def preferredList (rows : List Row) : List (String × String) :=
  (obsBases rows).filterMap fun b => (preferredOf rows b).map fun s => (b, s)

/-- One column update of `_apply_route_suffixes`'s inner loop. -/
def applyRowColumn (pref : List (String × String)) (row : Row) (c : String) :
    Row :=
  match rowGet row c with
  | some (.str v) =>
    let ts := pySplitWs v
    if ts.isEmpty || isRouteNumber ts then row
    else if (match ts.getLast? with
             | some l => ROUTE_SUFFIX_TOKENS.contains l
             | none => false) then row
    else
      let base := joinSp ts
      match assocLookup pref base with
      | some suffix =>
        -- `if suffix:` — the Python truthiness check on the suffix string
        if suffix ≠ "" then rowSet row c (.str (base ++ " " ++ suffix)) else row
      | none => row
  | _ => row

/-- All route columns of one row (`_apply_route_suffixes` inner loop). -/
def applyRow (pref : List (String × String)) (row : Row) : Row :=
  ROUTE_COLUMNS.foldl (applyRowColumn pref) row

/-- Embedding of `_apply_route_suffixes` (the in-place mutation of the Python
list is rendered as returning the updated list; see the heap-level model below
for the aliasing claim). -/
def applyRouteSuffixes (rows : List Row) : List Row :=
  let pref := preferredList rows
  if pref.isEmpty then rows else rows.map (applyRow pref)

/-! ### Geometry (geo.py) -/

/-- A `(lon, lat)` coordinate. -/
abbrev Coordinate := PyFloat × PyFloat

/-- Embedding of `PolygonBoundary`. -/
structure PolygonBoundary where
  outer : List Coordinate
  holes : List (List Coordinate) := []
deriving DecidableEq, Repr

/-- Embedding of `BoundaryFilterReport`. -/
structure BoundaryFilterReport where
  total_rows : Nat
  included_rows : Nat
  excluded_rows : Nat
  invalid_rows : Nat
deriving DecidableEq, Repr

/-- Embedding of `PolygonBoundary.bbox`.  Python computes `min`/`max` over the
outer ring's coordinate lists, which raises `ValueError` on an empty outer
ring — modelled as `none`. -/
def bbox (p : PolygonBoundary) : Option (PyFloat × PyFloat × PyFloat × PyFloat) :=
  match p.outer with
  | [] => none
  | c :: rest =>
    let lons := rest.map Prod.fst
    let lats := rest.map Prod.snd
    some (lons.foldl qMin c.1, lats.foldl qMin c.2,
          lons.foldl qMax c.1, lats.foldl qMax c.2)

/-- The `1e-12` guard added to the edge's latitude delta. -/
def epsRay : PyFloat := ⟨1, 10 ^ 12⟩

/-- Embedding of `_point_in_ring` (ray casting over consecutive edge pairs;
rings with fewer than 3 points never contain).  Python's `and` short-circuits:
the division runs only when the edge straddles the query latitude, and raises
`ZeroDivisionError` (modelled as `none`) when the guarded denominator
`y2 - y1 + 1e-12` is exactly zero there. -/
def pointInRing (lon lat : PyFloat) (ring : List Coordinate) : Option Bool :=
  if ring.length < 3 then some false
  else
    (List.zip ring ring.tail).foldlM
      (fun inside edge =>
        let x1 := edge.1.1
        let y1 := edge.1.2
        let x2 := edge.2.1
        let y2 := edge.2.2
        if qLt lat y1 != qLt lat y2 then
          match qDiv? (qMul (qSub x2 x1) (qSub lat y1))
              (qAdd (qSub y2 y1) epsRay) with
          | none => none
          | some q => some (if qLt lon (qAdd q x1) then !inside else inside)
        else some inside)
      false

/-- The hole loop of `point_in_polygon`: holes are tested in order, the first
containing hole returns `False`, and an exception from a hole test
propagates. -/
def holesLoop (lon lat : PyFloat) : List (List Coordinate) → Option Bool
  | [] => some true
  | h :: rest =>
    match pointInRing lon lat h with
    | none => none
    | some true => some false
    | some false => holesLoop lon lat rest

/-- Embedding of `point_in_polygon`: bounding-box reject, outer-ring crossing
test, then hole rings.  `none` models an uncaught exception: the `ValueError`
that `bbox` raises on an empty outer ring, or the `ZeroDivisionError` from a
crossing test (see `pointInRing`). -/
def pointInPolygon (lon lat : PyFloat) (p : PolygonBoundary) : Option Bool :=
  match bbox p with
  | none => none
  | some (minLon, minLat, maxLon, maxLat) =>
    if qLt lon minLon || qLt maxLon lon || qLt lat minLat || qLt maxLat lat then
      some false
    else
      match pointInRing lon lat p.outer with
      | none => none
      | some false => some false
      | some true => holesLoop lon lat p.holes

/-- Whether every crossing test the ray-casting loop would perform on `ring`
at latitude `lat` has a nonzero guarded denominator (edges that do not
straddle `lat` never divide). -/
def ringDenomsNonzero (lat : PyFloat) (ring : List Coordinate) : Bool :=
  (List.zip ring ring.tail).all fun edge =>
    !(qLt lat edge.1.2 != qLt lat edge.2.2) ||
      (qAdd (qSub edge.2.2 edge.1.2) epsRay).num ≠ 0

/-- The regex of `parse_coordinate`:
optional sign, digits, optional decimal digits, optional exponent. -/
def coordPattern (cs : List Char) : Bool :=
  let afterSign :=
    match cs with
    | '-' :: r => r
    | '+' :: r => r
    | _ => cs
  let intFrac := afterSign.span Char.isDigit
  (!intFrac.1.isEmpty) &&
  (let afterInt := intFrac.2
   let afterFrac :=
     match afterInt with
     | '.' :: r =>
       let fr := r.span Char.isDigit
       if fr.1.isEmpty then none else some fr.2
     | _ => some afterInt
   match afterFrac with
   | none => false
   | some rest =>
     match rest with
     | [] => true
     | e :: r2 =>
       (e == 'e' || e == 'E') &&
       (let afterExpSign :=
          match r2 with
          | '-' :: r3 => r3
          | '+' :: r3 => r3
          | _ => r2
        let ed := afterExpSign.span Char.isDigit
        !ed.1.isEmpty && ed.2.isEmpty))

/-- Embedding of `parse_coordinate`: `None`/blank to `none`, then the strict
regex match, then `float(text)` (which always succeeds on the regex's
language). -/
def parseCoordinate (v : Value) : Option PyFloat :=
  match v with
  | .null => none
  | _ =>
    let text := pyStrip (pyStr v)
    if text = "" then none
    else if coordPattern text.data then pyFloatOfString? text
    else none

/-! ### Boundary loading (geo.py `load_kmz_polygon` and helpers)

The zip container and the XML tree are external library structure; their
already-extracted content is embedded as plain data: a container either has no
KML member, or yields a list of `Polygon` elements, each with the text of its
`outerBoundaryIs//coordinates` node (when that chain is present and nonempty)
and the texts of its `innerBoundaryIs//coordinates` nodes. -/

/-- One `Polygon` element of the markup. -/
structure KmlPolygon where
  outerText : Option String
  holeTexts : List String := []
deriving DecidableEq, Repr

/-- Embedding of `_parse_coordinates` (geo.py): whitespace-separated
`lon,lat[,alt]` triples, unparsable triples skipped, ring closed by appending
the first point when needed.  (Replacing newlines by spaces and then splitting
on whitespace is plain whitespace splitting.) -/
def parseKmlCoordinates (text : String) : List Coordinate :=
  let coords := (pySplitWs text).filterMap fun token =>
    match pySplitComma token with
    | p0 :: p1 :: _ =>
      match pyFloatOfString? p0, pyFloatOfString? p1 with
      | some lon, some lat => some ((lon, lat) : Coordinate)
      | _, _ => none
    | _ => none
  match coords.head?, coords.getLast? with
  | some first, some last =>
    -- Python compares the endpoint tuples with `!=`, i.e. by float value
    if !(qEqb first.1 last.1 && qEqb first.2 last.2) then coords ++ [first]
    else coords
  | _, _ => coords

/-- Embedding of `_parse_ring`/`_parse_holes` feeding `_parse_kml_polygons`:
polygons whose outer ring parses empty are skipped, empty hole rings are
dropped. -/
def parseKmlPolygons (polys : List KmlPolygon) : List PolygonBoundary :=
  polys.filterMap fun poly =>
    let outer :=
      match poly.outerText with
      | none => []
      | some t => parseKmlCoordinates t
    if outer.isEmpty then none
    else some { outer := outer,
                holes := (poly.holeTexts.map parseKmlCoordinates).filter
                  (fun r => !r.isEmpty) }

/-- Embedding of `load_kmz_polygon` over the extracted container content:
`none` is a container with no KML member. -/
def loadKmzPolygon (container : Option (List KmlPolygon)) :
    Except String PolygonBoundary :=
  match container with
  | none => .error "KMZ does not contain a KML file."
  | some polys =>
    match parseKmlPolygons polys with
    | [] => .error "No polygon found in KMZ."
    | [b] => .ok b
    | _ => .error "KMZ contains multiple polygons; only one is supported."

/-- Whether an `Except` result is a success. -/
def isOkE {ε α : Type} : Except ε α → Bool
  | .ok _ => true
  | .error _ => false

instance {ε α : Type} [DecidableEq ε] [DecidableEq α] : DecidableEq (Except ε α) := fun a b =>
  match a, b with
  | .ok x, .ok y =>
    if h : x = y then isTrue (by rw [h]) else isFalse (by simp [h])
  | .error x, .error y =>
    if h : x = y then isTrue (by rw [h]) else isFalse (by simp [h])
  | .ok _, .error _ => isFalse (by simp)
  | .error _, .ok _ => isFalse (by simp)

/-! ### Refinement orchestrator (`CrashDataRefiner`, refiner.py) -/

/-- Embedding of `RefinementConfig`.  `fill_defaults` is an association list
in insertion order (a Python dict). -/
structure RefinementConfig where
  required_columns : List String := []
  date_columns : List String := []
  integer_columns : List String := []
  float_columns : List String := []
  boolean_columns : List String := []
  dedupe_on : List String := []
  fill_defaults : List (String × Value) := []
deriving DecidableEq, Repr

/-- Embedding of `RefinementConfig.normalized` (applied by
`CrashDataRefiner.__init__`).  The dict comprehension over `fill_defaults`
keeps first positions and lets later duplicates overwrite, which is exactly
`rowSet` folding. -/
def RefinementConfig.normalized (cfg : RefinementConfig) : RefinementConfig where
  required_columns := cfg.required_columns.map normalizeHeader
  date_columns := cfg.date_columns.map normalizeHeader
  integer_columns := cfg.integer_columns.map normalizeHeader
  float_columns := cfg.float_columns.map normalizeHeader
  boolean_columns := cfg.boolean_columns.map normalizeHeader
  dedupe_on := cfg.dedupe_on.map normalizeHeader
  fill_defaults :=
    cfg.fill_defaults.foldl (fun acc kv => rowSet acc (normalizeHeader kv.1) kv.2) []

/-- Embedding of `RefinementReport`. -/
structure RefinementReport where
  total_rows : Nat
  kept_rows : Nat
  dropped_missing_required : Nat
  dropped_duplicates : Nat
  coerced_dates : Nat
  coerced_numbers : Nat
  coerced_booleans : Nat
deriving DecidableEq, Repr

/-- Embedding of `CrashDataRefiner._has_required_columns`
(`value in (None, "")`). -/
def hasRequiredColumns (cfg : RefinementConfig) (row : Row) : Bool :=
  cfg.required_columns.all fun c =>
    let v := rowGetD row c
    !(pyEq v .null || pyEq v (.str ""))

/-- The dedup key tuple `tuple(row.get(column) for column in dedupe_on)`. -/
def dedupeKey (cfg : RefinementConfig) (row : Row) : List Value :=
  cfg.dedupe_on.map (rowGetD row)

/-- Python `==` on key tuples (elementwise `==`). -/
def keyEq (a b : List Value) : Bool :=
  a.length = b.length && (List.zip a b).all fun p => pyEq p.1 p.2

/-- Membership of a key tuple in the dedup set (`dedupe_key in dedupe_index`,
set membership by equality). -/
def keySeen (idx : List (List Value)) (k : List Value) : Bool :=
  idx.any (keyEq · k)

/-- The `fill_defaults` loop of `refine_rows` (runs before coercion). -/
def fillDefaultsStep (defaults : List (String × Value)) (row : Row) : Row :=
  defaults.foldl
    (fun r kv =>
      match rowGetD r kv.1 with
      | .null => rowSet r kv.1 kv.2
      | .str s => if pyStrip s = "" then rowSet r kv.1 kv.2 else r
      | _ => r)
    row

/-- The date-column loop of `refine_rows`.  A non-string, non-`None` value
reaches `value.strip()` inside `_parse_date` and raises `AttributeError`
(modelled as `.error`; the message mirrors Python's, unquoted). -/
def dateColumnStep (cols : List String) (row : Row) : Except String (Row × Nat) :=
  cols.foldlM
    (fun (acc : Row × Nat) c =>
      match rowGetD acc.1 c with
      | .null => .ok (rowSet acc.1 c .null, acc.2)
      | .str s =>
        match pyParseDateStr s with
        | none => .ok (rowSet acc.1 c .null, acc.2)
        | some p =>
          if p ≠ s then .ok (rowSet acc.1 c (.str p), acc.2 + 1)
          else .ok (acc.1, acc.2)
      | v =>
        .error ("AttributeError: " ++ pyTypeName v ++
          " object has no attribute strip"))
    (row, 0)

/-- The integer-column loop of `refine_rows`. -/
def intColumnStep (cols : List String) (row : Row) : Row × Nat :=
  cols.foldl
    (fun acc c =>
      let original := rowGetD acc.1 c
      match pyCoerceNumericInt original with
      | some i =>
        (rowSet acc.1 c (.int i),
         if pyEq (.int i) original then acc.2 else acc.2 + 1)
      | none => (rowSet acc.1 c .null, acc.2))
    (row, 0)

/-- The float-column loop of `refine_rows`. -/
def floatColumnStep (cols : List String) (row : Row) : Row × Nat :=
  cols.foldl
    (fun acc c =>
      let original := rowGetD acc.1 c
      match pyCoerceNumericFloat original with
      | some q =>
        (rowSet acc.1 c (.float q),
         if pyEq (.float q) original then acc.2 else acc.2 + 1)
      | none => (rowSet acc.1 c .null, acc.2))
    (row, 0)

/-- The boolean-column loop of `refine_rows`. -/
def boolColumnStep (cols : List String) (row : Row) : Row × Nat :=
  cols.foldl
    (fun acc c =>
      let original := rowGetD acc.1 c
      match pyCoerceBoolean original with
      | some b =>
        (rowSet acc.1 c (.bool b),
         if pyEq (.bool b) original then acc.2 else acc.2 + 1)
      | none => (rowSet acc.1 c .null, acc.2))
    (row, 0)

/-- The crash-type standardization loop (`if column in row`). -/
def crashTypeStep (row : Row) : Row :=
  CRASH_TYPE_COLUMNS.foldl
    (fun r c =>
      if rowHas r c then rowSet r c (standardizeCrashType (rowGetD r c)) else r)
    row

/-- The route standardization loop (Pass 1). -/
def routeStep (row : Row) : Row :=
  ROUTE_COLUMNS.foldl
    (fun r c =>
      if rowHas r c then rowSet r c (standardizeRoute (rowGetD r c)) else r)
    row

/-- The per-row value pipeline of `refine_rows` after the admission checks:
defaults, then date/int/float/bool coercion, then Pass-1 standardization.
Returns the transformed row with the `(dates, numbers, booleans)` coercion
counter increments. -/
def transformRow (cfg : RefinementConfig) (row : Row) :
    Except String (Row × Nat × Nat × Nat) := do
  let row := fillDefaultsStep cfg.fill_defaults row
  let (row, cd) ← dateColumnStep cfg.date_columns row
  let (row, cn1) := intColumnStep cfg.integer_columns row
  let (row, cn2) := floatColumnStep cfg.float_columns row
  let (row, cb) := boolColumnStep cfg.boolean_columns row
  let row := crashTypeStep row
  let row := routeStep row
  .ok (row, cd, cn1 + cn2, cb)

/-- The row loop of `refine_rows`, with the dedup index threaded forward.
Counters are accumulated additively (the order of additions is immaterial);
an exception in any row propagates, exactly as in the source. -/
def refineLoop (cfg : RefinementConfig) (nh : Bool) :
    List (List Value) → List Row → Except String (List Row × RefinementReport)
  | _, [] => .ok ([], ⟨0, 0, 0, 0, 0, 0, 0⟩)
  | seen, raw :: rest =>
    let row := if nh then normalizeRow raw else copyRow raw
    if !hasRequiredColumns cfg row then do
      let (outs, rep) ← refineLoop cfg nh seen rest
      .ok (outs, { rep with
        total_rows := rep.total_rows + 1
        dropped_missing_required := rep.dropped_missing_required + 1 })
    else if !cfg.dedupe_on.isEmpty && keySeen seen (dedupeKey cfg row) then do
      let (outs, rep) ← refineLoop cfg nh seen rest
      .ok (outs, { rep with
        total_rows := rep.total_rows + 1
        dropped_duplicates := rep.dropped_duplicates + 1 })
    else do
      let (row2, cd, cn, cb) ← transformRow cfg row
      let seen2 :=
        if !cfg.dedupe_on.isEmpty then dedupeKey cfg row :: seen else seen
      let (outs, rep) ← refineLoop cfg nh seen2 rest
      .ok (row2 :: outs, { rep with
        total_rows := rep.total_rows + 1
        kept_rows := rep.kept_rows + 1
        coerced_dates := rep.coerced_dates + cd
        coerced_numbers := rep.coerced_numbers + cn
        coerced_booleans := rep.coerced_booleans + cb })

/-- Embedding of `CrashDataRefiner.refine_rows` (over an already-normalized
config, as held by a `CrashDataRefiner` instance): the row loop followed by
Pass 2. -/
def refineRows (cfg : RefinementConfig) (rows : List Row) (nh : Bool) :
    Except String (List Row × RefinementReport) := do
  let (outs, rep) ← refineLoop cfg nh [] rows
  .ok (applyRouteSuffixes outs, rep)

/-- The row loop of `filter_rows_by_boundary`; `none` propagates the
`ValueError` that `point_in_polygon` raises on an empty outer ring. -/
def filterLoop (b : PolygonBoundary) (latc lonc : String) (nh : Bool) :
    List Row → Option (List Row × List Row × List Row × Nat)
  | [] => some ([], [], [], 0)
  | raw :: rest =>
    let row := if nh then normalizeRow raw else copyRow raw
    let lat := parseCoordinate (rowGetD row latc)
    let lon := parseCoordinate (rowGetD row lonc)
    match lat, lon with
    | some la, some lo =>
      match pointInPolygon lo la b with
      | none => none
      | some inside => do
        let (inc, exc, inv, t) ← filterLoop b latc lonc nh rest
        some (if inside then (row :: inc, exc, inv, t + 1)
              else (inc, row :: exc, inv, t + 1))
    | _, _ => do
      let (inc, exc, inv, t) ← filterLoop b latc lonc nh rest
      some (inc, exc, row :: inv, t + 1)

/-- Embedding of `CrashDataRefiner.filter_rows_by_boundary`. -/
def filterRowsByBoundary (b : PolygonBoundary)
    (latitude_column longitude_column : String) (rows : List Row) (nh : Bool) :
    Option (List Row × List Row × List Row × BoundaryFilterReport) :=
  let latc := normalizeHeader latitude_column
  let lonc := normalizeHeader longitude_column
  (filterLoop b latc lonc nh rows).map fun r =>
    (r.1, r.2.1, r.2.2.1,
     ⟨r.2.2.2, r.1.length, r.2.1.length, r.2.2.1.length⟩)

/-! ### Heap-level model of the row pipeline

Python rows are mutable dict objects handed to the engine by reference.  To
state the frame claim (caller rows never mutated, outputs freshly allocated),
the same pipeline is rendered over an explicit heap: a list of dict objects
addressed by index.  `dict(raw_row)` / `_normalize_row(raw_row)` allocate a
fresh object (append); every `row[k] = v` of the source targets the fresh
object, rendered as a single write of the transformed value through the fresh
address; Pass 2's in-place rewrites write through the kept output addresses. -/

/-- The object heap: caller rows first, engine-allocated copies appended. -/
abbrev Heap := List Row

/-- Dereference an address. -/
def heapGet (h : Heap) (a : Nat) : Row := h.getD a []

/-- Write through an address. -/
def heapSet (h : Heap) (a : Nat) (r : Row) : Heap := h.set a r

/-- Sequential writes (Pass 2's per-row mutations). -/
def writeAll (h : Heap) (ps : List (Nat × Row)) : Heap :=
  ps.foldl (fun acc p => heapSet acc p.1 p.2) h

/-- Heap rendering of the `refine_rows` row loop: read the caller's row,
allocate the fresh copy, run the admission checks and the per-row value
pipeline, write the result through the fresh address, keep its address. -/
def refineLoopH (cfg : RefinementConfig) (nh : Bool) :
    List (List Value) → Heap → List Nat →
      Except String (Heap × List Nat × RefinementReport)
  | _, h, [] => .ok (h, [], ⟨0, 0, 0, 0, 0, 0, 0⟩)
  | seen, h, a :: rest =>
    let row := if nh then normalizeRow (heapGet h a) else copyRow (heapGet h a)
    let h1 := h ++ [row]
    let a1 := h.length
    if !hasRequiredColumns cfg row then do
      let (h2, outs, rep) ← refineLoopH cfg nh seen h1 rest
      .ok (h2, outs, { rep with
        total_rows := rep.total_rows + 1
        dropped_missing_required := rep.dropped_missing_required + 1 })
    else if !cfg.dedupe_on.isEmpty && keySeen seen (dedupeKey cfg row) then do
      let (h2, outs, rep) ← refineLoopH cfg nh seen h1 rest
      .ok (h2, outs, { rep with
        total_rows := rep.total_rows + 1
        dropped_duplicates := rep.dropped_duplicates + 1 })
    else do
      let (row2, cd, cn, cb) ← transformRow cfg row
      let seen2 :=
        if !cfg.dedupe_on.isEmpty then dedupeKey cfg row :: seen else seen
      let (h2, outs, rep) ← refineLoopH cfg nh seen2 (heapSet h1 a1 row2) rest
      .ok (h2, a1 :: outs, { rep with
        total_rows := rep.total_rows + 1
        kept_rows := rep.kept_rows + 1
        coerced_dates := rep.coerced_dates + cd
        coerced_numbers := rep.coerced_numbers + cn
        coerced_booleans := rep.coerced_booleans + cb })

/-- Heap rendering of `refine_rows`: the row loop, then Pass 2 rewriting the
kept rows in place through their addresses. -/
def refineRowsH (cfg : RefinementConfig) (h : Heap) (inputs : List Nat)
    (nh : Bool) : Except String (Heap × List Nat × RefinementReport) := do
  let (h1, outs, rep) ← refineLoopH cfg nh [] h inputs
  let newRows := applyRouteSuffixes (outs.map (heapGet h1))
  .ok (writeAll h1 (outs.zip newRows), outs, rep)

/-- Heap rendering of the `filter_rows_by_boundary` row loop: each caller row
is copied into a fresh object whose address lands in exactly one bucket. -/
def filterLoopH (b : PolygonBoundary) (latc lonc : String) (nh : Bool) :
    Heap → List Nat → Option (Heap × List Nat × List Nat × List Nat × Nat)
  | h, [] => some (h, [], [], [], 0)
  | h, a :: rest =>
    let row := if nh then normalizeRow (heapGet h a) else copyRow (heapGet h a)
    let h1 := h ++ [row]
    let a1 := h.length
    let lat := parseCoordinate (rowGetD row latc)
    let lon := parseCoordinate (rowGetD row lonc)
    match lat, lon with
    | some la, some lo =>
      match pointInPolygon lo la b with
      | none => none
      | some inside => do
        let (h2, inc, exc, inv, t) ← filterLoopH b latc lonc nh h1 rest
        some (if inside then (h2, a1 :: inc, exc, inv, t + 1)
              else (h2, inc, a1 :: exc, inv, t + 1))
    | _, _ => do
      let (h2, inc, exc, inv, t) ← filterLoopH b latc lonc nh h1 rest
      some (h2, inc, exc, a1 :: inv, t + 1)

/-- Heap rendering of `filter_rows_by_boundary`. -/
def filterRowsByBoundaryH (b : PolygonBoundary)
    (latitude_column longitude_column : String) (h : Heap) (inputs : List Nat)
    (nh : Bool) :
    Option (Heap × List Nat × List Nat × List Nat × BoundaryFilterReport) :=
  let latc := normalizeHeader latitude_column
  let lonc := normalizeHeader longitude_column
  (filterLoopH b latc lonc nh h inputs).map fun r =>
    (r.1, r.2.1, r.2.2.1, r.2.2.2.1,
     ⟨r.2.2.2.2, r.2.1.length, r.2.2.1.length, r.2.2.2.1.length⟩)


/-- The effect of `applyRowColumn` on the targeted cell alone (proof-level
restatement of the per-cell behavior of `_apply_route_suffixes`). -/
def applyCellVal (pref : List (String × String)) : Option Value → Option Value
  | some (.str v) =>
    let ts := pySplitWs v
    if ts.isEmpty || isRouteNumber ts then some (.str v)
    else if (match ts.getLast? with
             | some l => ROUTE_SUFFIX_TOKENS.contains l
             | none => false) then some (.str v)
    else
      match assocLookup pref (joinSp ts) with
      | some suffix =>
        if suffix ≠ "" then some (.str (joinSp ts ++ " " ++ suffix))
        else some (.str v)
      | none => some (.str v)
  | o => o


/-- Reading back the key just written. -/
theorem rowGet_rowSet_self (r : Row) (k : String) (v : Value) :
    rowGet (rowSet r k v) k = some v := by
  induction r with
  | nil => simp [rowSet, rowGet]
  | cons p rest ih =>
    obtain ⟨k', v'⟩ := p
    by_cases h : k' = k
    · simp [rowSet, rowGet, h]
    · simp [rowSet, rowGet, h, ih]

/-- Writing one key leaves other keys unchanged. -/
theorem rowGet_rowSet_other (r : Row) (k k' : String) (v : Value) (h : k' ≠ k) :
    rowGet (rowSet r k' v) k = rowGet r k := by
  induction r with
  | nil => simp [rowSet, rowGet, h]
  | cons p rest ih =>
    obtain ⟨k'', v''⟩ := p
    by_cases h2 : k'' = k'
    · subst h2
      simp [rowSet, rowGet, h]
    · by_cases h3 : k'' = k <;> simp [rowSet, rowGet, h2, h3, Ne.symm h, ih]

/-- Inversion of a successful `Except` bind. -/
theorem bindOk {ε α β : Type} (x : Except ε α) (f : α → Except ε β) (b : β)
    (h : x >>= f = .ok b) : ∃ a, x = .ok a ∧ f a = .ok b := by
  cases x with
  | error e =>
    simp only [bind, Except.bind] at h
    exact Except.noConfusion h
  | ok a => exact ⟨a, rfl, by simpa only [bind, Except.bind] using h⟩

/-- Each visited row bumps the total and exactly one of kept, dropped-missing,
or dropped-duplicate.  Loop invariant behind C1. -/
theorem refineLoop_counts (cfg : RefinementConfig) (nh : Bool)
    (rows : List Row) (seen : List (List Value)) (outs : List Row)
    (rep : RefinementReport)
    (h : refineLoop cfg nh seen rows = .ok (outs, rep)) :
    rep.kept_rows + rep.dropped_missing_required + rep.dropped_duplicates = rep.total_rows ∧
    rep.total_rows = rows.length := by
  induction rows generalizing seen outs rep with
  | nil =>
    simp only [refineLoop] at h
    cases h
    simp
  | cons raw rest ih =>
    simp only [refineLoop] at h
    split at h
    all_goals try split at h
    all_goals try split at h
    all_goals
      first
      | (obtain ⟨⟨outs', rep'⟩, hrec, h2⟩ := bindOk _ _ _ h
         cases h2
         have := ih _ outs' rep' hrec
         simp only [List.length_cons]
         omega)
      | (obtain ⟨⟨row2, cd, cn, cb⟩, htr, h2⟩ := bindOk _ _ _ h
         obtain ⟨⟨outs', rep'⟩, hrec, h3⟩ := bindOk _ _ _ h2
         cases h3
         have := ih _ outs' rep' hrec
         simp only [List.length_cons]
         omega)
/-- `qDiv?` succeeds exactly on a divisor with nonzero numerator. -/
theorem qDiv_isSome_of_num_ne (a b : PyFloat) (h : b.num ≠ 0) :
    (qDiv? a b).isSome = true := by
  unfold qDiv?
  split
  · rfl
  · split
    · rfl
    · exfalso
      omega

/-- The ray-casting fold returns a boolean (from any accumulator) when every
straddling edge has a nonzero guarded denominator. -/
theorem ringFold_isSome (lon lat : PyFloat)
    (edges : List (Coordinate × Coordinate)) (acc : Bool)
    (h : edges.all (fun edge =>
        !(qLt lat edge.1.2 != qLt lat edge.2.2) ||
          (qAdd (qSub edge.2.2 edge.1.2) epsRay).num ≠ 0) = true) :
    (edges.foldlM
      (fun inside edge =>
        let x1 := edge.1.1
        let y1 := edge.1.2
        let x2 := edge.2.1
        let y2 := edge.2.2
        if qLt lat y1 != qLt lat y2 then
          match qDiv? (qMul (qSub x2 x1) (qSub lat y1))
              (qAdd (qSub y2 y1) epsRay) with
          | none => none
          | some q => some (if qLt lon (qAdd q x1) then !inside else inside)
        else some inside)
      acc).isSome = true := by
  induction edges generalizing acc with
  | nil => rfl
  | cons e rest ih =>
    simp only [List.all_cons, Bool.and_eq_true] at h
    obtain ⟨he, hrest⟩ := h
    rw [List.foldlM_cons]
    by_cases hs : (qLt lat e.1.2 != qLt lat e.2.2) = true
    · have hnum : (qAdd (qSub e.2.2 e.1.2) epsRay).num ≠ 0 := by
        rw [hs] at he
        simpa using he
      have hdiv := qDiv_isSome_of_num_ne
        (qMul (qSub e.2.1 e.1.1) (qSub lat e.1.2)) _ hnum
      obtain ⟨q, hq⟩ := Option.isSome_iff_exists.mp hdiv
      simp only [hs, if_true, hq, Option.some_bind]
      exact ih _ hrest
    · simp only [Bool.not_eq_true] at hs
      simp only [hs, Bool.false_eq_true, if_false, Option.some_bind]
      exact ih _ hrest

/-- The ray-casting test returns a boolean whenever every straddling edge of
the ring has a nonzero guarded denominator. -/
theorem pointInRing_isSome_of_guard (lon lat : PyFloat) (ring : List Coordinate)
    (h : ringDenomsNonzero lat ring = true) :
    (pointInRing lon lat ring).isSome = true := by
  unfold pointInRing
  split
  · rfl
  · exact ringFold_isSome lon lat _ false h

/-- The hole loop returns a boolean when every hole ring passes the
denominator guard at the query latitude. -/
theorem holesLoop_isSome_of_guard (lon lat : PyFloat)
    (holes : List (List Coordinate))
    (h : ∀ hl ∈ holes, ringDenomsNonzero lat hl = true) :
    (holesLoop lon lat holes).isSome = true := by
  induction holes with
  | nil => rfl
  | cons hd rest ih =>
    have hpt := pointInRing_isSome_of_guard lon lat hd (h hd (by simp))
    unfold holesLoop
    cases hr : pointInRing lon lat hd with
    | none =>
      rw [hr] at hpt
      simp at hpt
    | some bv =>
      cases bv with
      | true => rfl
      | false => exact ih fun hl hm => h hl (List.mem_cons_of_mem _ hm)

/-- With a nonempty outer ring and every denominator guard nonzero at the
query latitude, `point_in_polygon` returns a boolean. -/
theorem pointInPolygon_isSome_of_guard (lon lat : PyFloat) (b : PolygonBoundary)
    (hout : b.outer ≠ []) (houter : ringDenomsNonzero lat b.outer = true)
    (hholes : ∀ hl ∈ b.holes, ringDenomsNonzero lat hl = true) :
    (pointInPolygon lon lat b).isSome = true := by
  obtain ⟨c, rest, hb⟩ := List.exists_cons_of_ne_nil hout
  have hring := pointInRing_isSome_of_guard lon lat b.outer houter
  rw [hb] at hring
  simp only [pointInPolygon, bbox, hb]
  split
  · rfl
  · cases hr : pointInRing lon lat (c :: rest) with
    | none =>
      rw [hr] at hring
      simp at hring
    | some bv =>
      cases bv with
      | false => rfl
      | true => exact holesLoop_isSome_of_guard lon lat b.holes hholes

/-- Inversion of a successful `Option` bind. -/
theorem bindSome {α β : Type} (x : Option α) (f : α → Option β) (b : β)
    (h : x >>= f = some b) : ∃ a, x = some a ∧ f a = some b := by
  cases x with
  | none => simp [bind] at h
  | some a => exact ⟨a, rfl, by simpa [bind] using h⟩

/-- When the boundary-filter loop returns, it has counted every row and
distributed the processed (copied or normalized) rows among the three
buckets. -/
theorem filterLoop_partition (b : PolygonBoundary) (latc lonc : String)
    (nh : Bool) (rows inc exc inv : List Row) (t : Nat)
    (h : filterLoop b latc lonc nh rows = some (inc, exc, inv, t)) :
    t = rows.length ∧
    (inc ++ exc ++ inv).Perm
      (rows.map fun raw => if nh then normalizeRow raw else copyRow raw) := by
  induction rows generalizing inc exc inv t with
  | nil =>
    simp only [filterLoop] at h
    cases h
    simp
  | cons raw rest ih =>
    have hmid : ∀ (r : Row) (inc2 exc2 inv2 : List Row),
        (inc2 ++ exc2 ++ r :: inv2).Perm (r :: (inc2 ++ exc2 ++ inv2)) :=
      fun _ _ _ _ => List.perm_middle
    have hexc : ∀ (r : Row) (inc2 exc2 inv2 : List Row),
        (inc2 ++ (r :: exc2) ++ inv2).Perm (r :: (inc2 ++ exc2 ++ inv2)) := by
      intro r inc2 exc2 inv2
      simp only [List.append_assoc, List.cons_append]
      exact List.perm_middle
    simp only [filterLoop] at h
    split at h
    · split at h
      · exact Option.noConfusion h
      · obtain ⟨⟨inc1, exc1, inv1, t1⟩, hrec, h2⟩ := bindSome _ _ _ h
        obtain ⟨ht1, hperm1⟩ := ih inc1 exc1 inv1 t1 hrec
        split at h2
        · cases h2
          refine ⟨by simp [ht1], ?_⟩
          simp only [List.map_cons, List.cons_append]
          exact hperm1.cons _
        · cases h2
          refine ⟨by simp [ht1], ?_⟩
          simp only [List.map_cons]
          exact (hexc _ _ _ _).trans (hperm1.cons _)
    · obtain ⟨⟨inc1, exc1, inv1, t1⟩, hrec, h2⟩ := bindSome _ _ _ h
      obtain ⟨ht1, hperm1⟩ := ih inc1 exc1 inv1 t1 hrec
      cases h2
      refine ⟨by simp [ht1], ?_⟩
      simp only [List.map_cons]
      exact (hmid _ _ _ _).trans (hperm1.cons _)
/-- C1: for every configuration and every input row list, when `refine_rows`
returns, its report satisfies `kept_rows + dropped_missing_required +
dropped_duplicates = total_rows`, and `total_rows` is the number of input
rows.  (Quantifying over every config covers in particular the normalized
configs a `CrashDataRefiner` instance holds.) -/
theorem refine_report_counts_partition (cfg : RefinementConfig) (nh : Bool)
    (rows outs : List Row) (rep : RefinementReport)
    (h : refineRows cfg rows nh = .ok (outs, rep)) :
    rep.kept_rows + rep.dropped_missing_required + rep.dropped_duplicates = rep.total_rows ∧
    rep.total_rows = rows.length := by
  simp only [refineRows] at h
  obtain ⟨⟨outs', rep'⟩, hloop, h2⟩ := bindOk _ _ _ h
  cases h2
  exact refineLoop_counts cfg nh rows [] outs' rep' hloop

/-- C1 witness: the partition equation at a concrete config and row list with
one kept, one required-dropped and one duplicate row. -/
theorem refine_report_counts_partition_witness :
    (⟨3, 1, 1, 1, 0, 0, 0⟩ : RefinementReport).kept_rows +
      (⟨3, 1, 1, 1, 0, 0, 0⟩ : RefinementReport).dropped_missing_required +
      (⟨3, 1, 1, 1, 0, 0, 0⟩ : RefinementReport).dropped_duplicates =
      (⟨3, 1, 1, 1, 0, 0, 0⟩ : RefinementReport).total_rows ∧
    (⟨3, 1, 1, 1, 0, 0, 0⟩ : RefinementReport).total_rows =
      ([[("id", Value.str "1")], [("id", Value.str "")], [("id", Value.str "1")]] : List Row).length :=
  refine_report_counts_partition
    { required_columns := ["id"], dedupe_on := ["id"] } true
    [[("id", .str "1")], [("id", .str "")], [("id", .str "1")]]
    [[("id", .str "1")]] ⟨3, 1, 1, 1, 0, 0, 0⟩ (by decide)

/-- C2 counterexample: a spec-valid boundary (nonempty, closed outer ring of
four points) on which `filter_rows_by_boundary` raises `ZeroDivisionError`
(modelled as `none`) instead of returning buckets and a report: the first
edge straddles the row's latitude and its guarded denominator
`y2 - y1 + 1e-12` is exactly zero, because `y1 - y2 = 1e-12` exactly. -/
theorem boundary_filter_zero_denominator_raises :
    filterRowsByBoundary
      { outer := [(⟨0, 1⟩, ⟨1, 10 ^ 12⟩), (⟨1, 1⟩, ⟨0, 1⟩), (⟨1, 2⟩, ⟨1, 1⟩),
                  (⟨0, 1⟩, ⟨1, 10 ^ 12⟩)] }
      "Lat" "Lon"
      [[("Lat", .str "5e-13"), ("Lon", .str "0.2")]] true = none ∧
    ([(⟨0, 1⟩, ⟨1, 10 ^ 12⟩), (⟨1, 1⟩, ⟨0, 1⟩), (⟨1, 2⟩, ⟨1, 1⟩),
      (⟨0, 1⟩, ⟨1, 10 ^ 12⟩)] : List Coordinate) ≠ [] ∧
    ([(⟨0, 1⟩, ⟨1, 10 ^ 12⟩), (⟨1, 1⟩, ⟨0, 1⟩), (⟨1, 2⟩, ⟨1, 1⟩),
      (⟨0, 1⟩, ⟨1, 10 ^ 12⟩)] : List Coordinate).head? =
      ([(⟨0, 1⟩, ⟨1, 10 ^ 12⟩), (⟨1, 1⟩, ⟨0, 1⟩), (⟨1, 2⟩, ⟨1, 1⟩),
        (⟨0, 1⟩, ⟨1, 10 ^ 12⟩)] : List Coordinate).getLast? :=
  ⟨by rfl, by decide, by decide⟩

/-- C2 (amended): whenever `filter_rows_by_boundary` returns (it can instead
raise `ZeroDivisionError` when a straddling edge's guarded denominator
`y2 - y1 + 1e-12` is exactly zero, and `ValueError` on an empty outer ring),
its report counts each bucket, `included + excluded + invalid = total = number
of input rows`, and the three buckets together are exactly the
(header-normalized) input rows — no returned row is dropped or duplicated. -/
theorem boundary_filter_partition (b : PolygonBoundary) (latCol lonCol : String)
    (rows inc exc inv : List Row) (rep : BoundaryFilterReport)
    (h : filterRowsByBoundary b latCol lonCol rows true = some (inc, exc, inv, rep)) :
    rep.included_rows = inc.length ∧ rep.excluded_rows = exc.length ∧
    rep.invalid_rows = inv.length ∧ rep.total_rows = rows.length ∧
    rep.included_rows + rep.excluded_rows + rep.invalid_rows = rep.total_rows ∧
    (inc ++ exc ++ inv).Perm (rows.map normalizeRow) := by
  simp only [filterRowsByBoundary] at h
  cases hfl : filterLoop b (normalizeHeader latCol) (normalizeHeader lonCol)
      true rows with
  | none =>
    rw [hfl] at h
    exact Option.noConfusion h
  | some r =>
    rw [hfl] at h
    simp only [Option.map_some'] at h
    cases h
    obtain ⟨ht, hperm⟩ :=
      filterLoop_partition b (normalizeHeader latCol) (normalizeHeader lonCol)
        true rows r.1 r.2.1 r.2.2.1 r.2.2.2 (by rw [hfl])
    have hperm' : (r.1 ++ r.2.1 ++ r.2.2.1).Perm (rows.map normalizeRow) := by
      simpa using hperm
    have hlen := hperm'.length_eq
    simp only [List.length_append, List.length_map] at hlen
    refine ⟨rfl, rfl, rfl, ht, ?_, hperm'⟩
    show r.1.length + r.2.1.length + r.2.2.1.length = r.2.2.2
    omega

/-- C2 witness: the rectangle boundary and three-row scenario of the spec
returns, with `included = excluded = invalid = 1` and the three buckets
together the normalized input rows. -/
theorem boundary_filter_partition_witness :
    (⟨3, 1, 1, 1⟩ : BoundaryFilterReport).included_rows =
      ([[("lat", Value.str "1"), ("lon", Value.str "0")]] : List Row).length ∧
    (⟨3, 1, 1, 1⟩ : BoundaryFilterReport).excluded_rows =
      ([[("lat", Value.str "3"), ("lon", Value.str "0")]] : List Row).length ∧
    (⟨3, 1, 1, 1⟩ : BoundaryFilterReport).invalid_rows =
      ([[("lat", Value.str ""), ("lon", Value.str "0")]] : List Row).length ∧
    (⟨3, 1, 1, 1⟩ : BoundaryFilterReport).total_rows =
      ([[("Lat", Value.str "1"), ("Lon", Value.str "0")],
        [("Lat", Value.str "3"), ("Lon", Value.str "0")],
        [("Lat", Value.str ""), ("Lon", Value.str "0")]] : List Row).length ∧
    (⟨3, 1, 1, 1⟩ : BoundaryFilterReport).included_rows +
        (⟨3, 1, 1, 1⟩ : BoundaryFilterReport).excluded_rows +
        (⟨3, 1, 1, 1⟩ : BoundaryFilterReport).invalid_rows =
      (⟨3, 1, 1, 1⟩ : BoundaryFilterReport).total_rows ∧
    (([[("lat", Value.str "1"), ("lon", Value.str "0")]] ++
        [[("lat", Value.str "3"), ("lon", Value.str "0")]] ++
        [[("lat", Value.str ""), ("lon", Value.str "0")]] : List Row)).Perm
      (([[("Lat", Value.str "1"), ("Lon", Value.str "0")],
         [("Lat", Value.str "3"), ("Lon", Value.str "0")],
         [("Lat", Value.str ""), ("Lon", Value.str "0")]] : List Row).map normalizeRow) :=
  boundary_filter_partition
    { outer := [(⟨-1, 1⟩, ⟨0, 1⟩), (⟨1, 1⟩, ⟨0, 1⟩), (⟨1, 1⟩, ⟨2, 1⟩),
                (⟨-1, 1⟩, ⟨2, 1⟩), (⟨-1, 1⟩, ⟨0, 1⟩)] }
    "Lat" "Lon"
    [[("Lat", .str "1"), ("Lon", .str "0")],
     [("Lat", .str "3"), ("Lon", .str "0")],
     [("Lat", .str ""), ("Lon", .str "0")]]
    [[("lat", Value.str "1"), ("lon", Value.str "0")]]
    [[("lat", Value.str "3"), ("lon", Value.str "0")]]
    [[("lat", Value.str ""), ("lon", Value.str "0")]]
    ⟨3, 1, 1, 1⟩ (by rfl)

/-- C3 (code-bug exhibit): a date column holding the integer 5 makes
`refine_rows` raise `AttributeError` inside `_parse_date` (the model returns
`.error`), contradicting the never-raises claim for number-valued cells. -/
theorem date_coercion_raises_on_int_cell :
    refineRows ({ date_columns := ["Crash Date"] } : RefinementConfig).normalized
      [[("Crash Date", .int 5)]] true =
    .error "AttributeError: int object has no attribute strip" := by decide

/-- C5 (code-bug exhibit): `refine_rows` is not idempotent.  Route value
`STREET ROAD` standardizes to `ST RD` on the first run, and re-refining that
output collapses `ST RD` to `SR`, so the second application changes the rows
again. -/
theorem refine_rows_not_idempotent :
    (refineRows ({} : RefinementConfig).normalized
        [[("route", .str "STREET ROAD")]] true).map Prod.fst =
      .ok [[("route", .str "ST RD")]] ∧
    (refineRows ({} : RefinementConfig).normalized
        [[("route", .str "ST RD")]] true).map Prod.fst =
      .ok [[("route", .str "SR")]] ∧
    ([[("route", Value.str "SR")]] : List Row) ≠ [[("route", .str "ST RD")]] :=
  ⟨by decide, by decide, by decide⟩

/-- C7: Pass-1 roadway standardization maps ` N St. Rd. 127 ` and `IN 127`
both to `SR 127`, also when run through `refine_rows` on a roadway-name
column. -/
theorem route_standardization_scenarios :
    standardizeRoute (.str " N St. Rd. 127 ") = .str "SR 127" ∧
    standardizeRoute (.str "IN 127") = .str "SR 127" ∧
    (refineRows ({} : RefinementConfig).normalized
        [[("Route", .str " N St. Rd. 127 ")], [("Route", .str "IN 127")]] true).map Prod.fst =
      .ok [[("route", .str "SR 127")], [("route", .str "SR 127")]] :=
  ⟨by decide, by decide, by decide⟩

/-- C8 counterexample: on a boundary whose outer ring is empty,
`point_in_polygon` raises (`bbox` computes `min` of an empty list), so it is
not total over every `PolygonBoundary` value as claimed. -/
theorem point_in_polygon_empty_outer_raises :
    pointInPolygon ⟨0, 1⟩ ⟨0, 1⟩ { outer := [] } = none := by decide

/-- C8 (amended): `point_in_polygon` returns a boolean for every boundary
whose outer ring is nonempty and in which no ring edge straddling the query
latitude has a guarded denominator `y2 - y1 + 1e-12` of exactly zero —
including degenerate hole rings and outer rings with fewer than 3 points —
and any ring with fewer than 3 points is treated as non-containing.  Outside
those conditions it can raise: `ValueError` on an empty outer ring, and
`ZeroDivisionError` on a zero guarded denominator. -/
theorem point_in_polygon_total_guarded (lon lat : PyFloat)
    (b : PolygonBoundary) (ring : List Coordinate)
    (hout : b.outer ≠ []) (houter : ringDenomsNonzero lat b.outer = true)
    (hholes : ∀ hl ∈ b.holes, ringDenomsNonzero lat hl = true)
    (hring : ring.length < 3) :
    (pointInPolygon lon lat b).isSome = true ∧
    pointInRing lon lat ring = some false :=
  ⟨pointInPolygon_isSome_of_guard lon lat b hout houter hholes,
   by simp [pointInRing, hring]⟩

/-- C8 witness: the rectangle boundary with a degenerate one-point hole. -/
theorem point_in_polygon_total_guarded_witness :
    (pointInPolygon ⟨0,1⟩ ⟨1,1⟩
      { outer := [(⟨-1,1⟩, ⟨0,1⟩), (⟨1,1⟩, ⟨0,1⟩), (⟨1,1⟩, ⟨2,1⟩),
                  (⟨-1,1⟩, ⟨2,1⟩), (⟨-1,1⟩, ⟨0,1⟩)],
        holes := [[(⟨0,1⟩, ⟨0,1⟩)]] }).isSome = true ∧
    pointInRing ⟨0,1⟩ ⟨1,1⟩ [(⟨0,1⟩, ⟨0,1⟩)] = some false :=
  point_in_polygon_total_guarded ⟨0,1⟩ ⟨1,1⟩ _ _ (by decide) (by decide)
    (by decide) (by decide)

/-- C9 counterexample: a container whose markup has exactly one `Polygon`
element, with a missing outer-coordinates chain, still fails the load — so
the error condition is not `zero or more than one Polygon element` as
claimed. -/
theorem load_boundary_skipped_polygon_counterexample :
    isOkE (loadKmzPolygon (some [{ outerText := none }])) = false ∧
    (some [({ outerText := none } : KmlPolygon)]) ≠ (none : Option (List KmlPolygon)) ∧
    ([({ outerText := none } : KmlPolygon)]).length = 1 :=
  ⟨by decide, by decide, by decide⟩

/-- C9 (amended): the boundary loader fails exactly when the container has no
KML member or the number of successfully parsed polygons (elements whose
outer ring yields at least one coordinate) differs from one. -/
theorem load_boundary_error_iff_parsed_count (polys : List KmlPolygon) :
    isOkE (loadKmzPolygon none) = false ∧
    (isOkE (loadKmzPolygon (some polys)) = true ↔ (parseKmlPolygons polys).length = 1) := by
  refine ⟨rfl, ?_⟩
  unfold loadKmzPolygon
  cases hp : parseKmlPolygons polys with
  | nil => simp [isOkE, hp]
  | cons b rest =>
    cases rest with
    | nil => simp [isOkE, hp]
    | cons c rest2 =>
      simp only [hp, isOkE, List.length_cons]
      constructor
      · intro h
        exact absurd h (by simp)
      · intro h
        omega
/-- A trimmed-nonempty string matching neither the ISO fast path nor any
`strptime` format is returned as the trimmed text. -/
theorem pyParseDateStr_unmatched (s : String) (h1 : pyStrip s ≠ "")
    (h2 : isoCheck (pyStrip s).data = false) (h3 : tryFormats (pyStrip s) = none) :
    pyParseDateStr s = some (pyStrip s) := by
  simp [pyParseDateStr, h1, h2, h3]

/-- C4 (amended): for every string value of a configured date column whose
trimmed text is nonempty and matches no supported format, `refine_rows`
stores the trimmed original text — not null; in particular the value is
exactly unchanged whenever it has no surrounding whitespace. -/
theorem unparsable_date_trimmed (s : String) (h1 : pyStrip s ≠ "")
    (h2 : isoCheck (pyStrip s).data = false) (h3 : tryFormats (pyStrip s) = none) :
    (refineRows ({ date_columns := ["Crash Date"] } : RefinementConfig).normalized
        [[("Crash Date", Value.str s)]] true).map Prod.fst =
      .ok [[("crash_date", Value.str (pyStrip s))]] := by
  have hcfg : ({ date_columns := ["Crash Date"] } : RefinementConfig).normalized =
      { date_columns := ["crash_date"] } := by decide
  have hParse : pyParseDateStr s = some (pyStrip s) :=
    pyParseDateStr_unmatched s h1 h2 h3
  have hget : rowGetD [("crash_date", Value.str s)] "crash_date" = Value.str s := rfl
  have hsetv : ∀ a b : Value, rowSet [("crash_date", a)] "crash_date" b = [("crash_date", b)] :=
    fun a b => rfl
  have hcrash : ∀ v : Value, crashTypeStep [("crash_date", v)] = [("crash_date", v)] :=
    fun v => rfl
  have hroute : ∀ v : Value, routeStep [("crash_date", v)] = [("crash_date", v)] :=
    fun v => rfl
  have happ : ∀ v : Value, applyRouteSuffixes [[("crash_date", v)]] = [[("crash_date", v)]] :=
    fun v => rfl
  have hdate : dateColumnStep ["crash_date"] [("crash_date", Value.str s)] =
      .ok ([("crash_date", Value.str (pyStrip s))], if pyStrip s = s then 0 else 1) := by
    simp only [dateColumnStep, List.foldlM, hget, hParse]
    by_cases hts : pyStrip s = s
    · simp [hts]
    · simp [hts, hsetv]
  have htrans : transformRow { date_columns := ["crash_date"] }
      [("crash_date", Value.str s)] =
      .ok ([("crash_date", Value.str (pyStrip s))],
           (if pyStrip s = s then 0 else 1), 0, 0) := by
    simp only [transformRow, fillDefaultsStep, intColumnStep, floatColumnStep,
      boolColumnStep, List.foldl, hdate, bind, Except.bind, hcrash, hroute]
  rw [hcfg]
  simp only [refineRows, refineLoop, if_true]
  rw [show normalizeRow [("Crash Date", Value.str s)] = [("crash_date", Value.str s)] from rfl]
  simp only [show hasRequiredColumns { date_columns := ["crash_date"] }
      [("crash_date", Value.str s)] = true from rfl,
    List.isEmpty_nil, Bool.not_true, Bool.false_and, Bool.false_eq_true, if_false]
  simp only [htrans, bind, Except.bind, happ, Except.map]
/-- Reading the column just processed gives the per-cell transformation. -/
theorem applyRowColumn_get_self (pref : List (String × String)) (row : Row)
    (c : String) :
    rowGet (applyRowColumn pref row c) c = applyCellVal pref (rowGet row c) := by
  cases hv : rowGet row c with
  | none => simp [applyRowColumn, applyCellVal, hv]
  | some val =>
    cases val with
    | str v =>
      simp only [applyRowColumn, applyCellVal, hv]
      split
      · exact hv
      · split
        · exact hv
        · split
          · split
            · exact rowGet_rowSet_self row c _
            · exact hv
          · exact hv
    | null => simp [applyRowColumn, applyCellVal, hv]
    | int n => simp [applyRowColumn, applyCellVal, hv]
    | float q => simp [applyRowColumn, applyCellVal, hv]
    | bool b => simp [applyRowColumn, applyCellVal, hv]

/-- Processing one column leaves every other column unchanged. -/
theorem applyRowColumn_get_other (pref : List (String × String)) (row : Row)
    (c c' : String) (h : c' ≠ c) :
    rowGet (applyRowColumn pref row c') c = rowGet row c := by
  cases hv : rowGet row c' with
  | none => simp [applyRowColumn, hv]
  | some val =>
    cases val with
    | str v =>
      simp only [applyRowColumn, hv]
      split
      · rfl
      · split
        · rfl
        · split
          · split
            · exact rowGet_rowSet_other row c c' _ h
            · rfl
          · rfl
    | null => simp [applyRowColumn, hv]
    | int n => simp [applyRowColumn, hv]
    | float q => simp [applyRowColumn, hv]
    | bool b => simp [applyRowColumn, hv]

/-- Columns outside the processed set are untouched by the fold. -/
theorem foldl_applyRowColumn_not_mem (pref : List (String × String))
    (cols : List String) (row : Row) (c : String) (h : c ∉ cols) :
    rowGet (cols.foldl (applyRowColumn pref) row) c = rowGet row c := by
  induction cols generalizing row with
  | nil => rfl
  | cons c0 rest ih =>
    simp only [List.foldl_cons]
    rw [ih _ (fun hm => h (List.mem_cons_of_mem _ hm)),
      applyRowColumn_get_other pref row c c0 (fun he => h (he ▸ List.mem_cons_self _ _))]

/-- Over distinct columns, the fold acts on each column independently. -/
theorem foldl_applyRowColumn_mem (pref : List (String × String))
    (cols : List String) (row : Row) (c : String) (hnd : cols.Nodup)
    (hc : c ∈ cols) :
    rowGet (cols.foldl (applyRowColumn pref) row) c =
      applyCellVal pref (rowGet row c) := by
  induction cols generalizing row with
  | nil => exact absurd hc (List.not_mem_nil c)
  | cons c0 rest ih =>
    obtain ⟨hnotin, hndrest⟩ := List.nodup_cons.mp hnd
    simp only [List.foldl_cons]
    by_cases he : c = c0
    · subst he
      rw [foldl_applyRowColumn_not_mem pref rest _ c hnotin,
        applyRowColumn_get_self]
    · rcases List.mem_cons.mp hc with h0 | hrest
      · exact absurd h0 he
      · rw [ih _ hndrest hrest, applyRowColumn_get_other pref row c c0 (Ne.symm he)]

/-- The Pass-2 row update, projected to one route column. -/
theorem applyRow_get (pref : List (String × String)) (row : Row) (c : String)
    (hc : c ∈ ROUTE_COLUMNS) :
    rowGet (applyRow pref row) c = applyCellVal pref (rowGet row c) :=
  foldl_applyRowColumn_mem pref ROUTE_COLUMNS row c (by decide) hc

/-- Lookup in an association list built by `filterMap` over distinct keys. -/
theorem assocLookup_filterMap (f : String → Option String) (l : List String)
    (hnd : l.Nodup) (b : String) :
    assocLookup (l.filterMap fun k => (f k).map fun v => (k, v)) b =
      if b ∈ l then f b else none := by
  induction l with
  | nil => simp [assocLookup]
  | cons k rest ih =>
    obtain ⟨hk, hrest⟩ := List.nodup_cons.mp hnd
    cases hf : f k with
    | none =>
      simp only [List.filterMap_cons, hf, Option.map_none']
      rw [ih hrest]
      by_cases hb : b = k
      · subst hb
        simp only [List.mem_cons, true_or, if_true]
        rw [if_neg (fun hm => hk hm), hf]
      · simp only [List.mem_cons, hb, false_or]
    | some v =>
      simp only [List.filterMap_cons, hf, Option.map_some']
      simp only [assocLookup]
      by_cases hb : k = b
      · subst hb
        simp [hf]
      · rw [if_neg hb, ih hrest]
        have hiff : (b ∈ k :: rest) ↔ (b ∈ rest) := by
          simp [List.mem_cons, Ne.symm hb]
        simp only [hiff]

/-- A base name never observed with a suffix has no preferred suffix. -/
theorem preferredOf_not_mem (rows : List Row) (base : String)
    (h : base ∉ obsBases rows) : preferredOf rows base = none := by
  have hnot : base ∉ (suffixObs rows).map Prod.fst := by
    intro hm
    exact h (List.mem_dedup.mpr hm)
  have hfil : (suffixObs rows).filter (fun p => p.1 = base) = [] := by
    rw [List.filter_eq_nil_iff]
    intro p hp hdec
    exact hnot (List.mem_map.mpr ⟨p, hp, by simpa using hdec⟩)
  simp [preferredOf, distinctSuffixes, hfil]

/-- The `preferred` dict lookup agrees with the per-base tally. -/
theorem assocLookup_preferredList (rows : List Row) (base : String) :
    assocLookup (preferredList rows) base = preferredOf rows base := by
  rw [preferredList,
    assocLookup_filterMap (preferredOf rows) (obsBases rows) (List.nodup_dedup _) base]
  by_cases hm : base ∈ obsBases rows
  · rw [if_pos hm]
  · rw [if_neg hm, preferredOf_not_mem rows base hm]

/-- Every tallied suffix is a recognized route suffix token. -/
theorem suffixObs_snd_mem (rows : List Row) (p : String × String)
    (hp : p ∈ suffixObs rows) : ROUTE_SUFFIX_TOKENS.contains p.2 = true := by
  simp only [suffixObs, List.mem_flatMap] at hp
  obtain ⟨row, _, hmem⟩ := hp
  simp only [List.mem_filterMap] at hmem
  obtain ⟨c, _, hobs⟩ := hmem
  cases hcell : rowGet row c with
  | none => rw [hcell] at hobs; simp [obsOfCell] at hobs
  | some val =>
    rw [hcell] at hobs
    cases val with
    | str v =>
      simp only [obsOfCell] at hobs
      cases hlast : (pySplitWs v).getLast? with
      | none => rw [hlast] at hobs; simp at hobs
      | some last =>
        rw [hlast] at hobs
        simp only at hobs
        split at hobs
        · exact absurd hobs (by simp)
        · split at hobs
          · split at hobs
            · exact absurd hobs (by simp)
            · cases hobs
              assumption
          · exact absurd hobs (by simp)
    | null => simp [obsOfCell] at hobs
    | int n => simp [obsOfCell] at hobs
    | float q => simp [obsOfCell] at hobs
    | bool b => simp [obsOfCell] at hobs
/-- Indexing a mapped list within bounds. -/
theorem getD_map_of_lt {α β : Type} (f : α → β) (l : List α) (i : Nat) (d : β)
    (d' : α) (h : i < l.length) : (l.map f).getD i d = f (l.getD i d') := by
  induction l generalizing i with
  | nil => simp at h
  | cons a rest ih =>
    cases i with
    | zero => rfl
    | succ n => simpa [List.getD] using ih n (by simpa using h)

/-- C6: after Pass 2, a row whose route-column value is a bare base name (not
a route number, lacking a recognized suffix) is rewritten to `base suffix`
whenever the dataset observed exactly one distinct suffix for that base, and
is left unchanged whenever two or more distinct suffixes were observed. -/
theorem route_suffix_pass2 (rows : List Row) (base su : String) (i : Nat)
    (c v l : String)
    (hc : c ∈ ROUTE_COLUMNS) (hi : i < rows.length)
    (hv : rowGet (rows.getD i []) c = some (.str v))
    (hne : pySplitWs v ≠ [])
    (hnum : isRouteNumber (pySplitWs v) = false)
    (hl : (pySplitWs v).getLast? = some l)
    (hls : ROUTE_SUFFIX_TOKENS.contains l = false)
    (hbase : joinSp (pySplitWs v) = base) :
    (distinctSuffixes rows base = [su] →
      rowGet ((applyRouteSuffixes rows).getD i []) c =
        some (.str (base ++ " " ++ su))) ∧
    (2 ≤ (distinctSuffixes rows base).length →
      rowGet ((applyRouteSuffixes rows).getD i []) c = some (.str v)) := by
  have hempty : (pySplitWs v).isEmpty = false := by
    cases hs : pySplitWs v with
    | nil => exact absurd hs hne
    | cons a r => rfl
  constructor
  · intro hone
    have hsu_mem : su ∈ ((suffixObs rows).filter fun p => p.1 = base).map Prod.snd := by
      apply List.mem_dedup.mp
      rw [show (((suffixObs rows).filter fun p => p.1 = base).map Prod.snd).dedup =
          distinctSuffixes rows base from rfl, hone]
      exact List.mem_singleton.mpr rfl
    have hsuf_tok : ROUTE_SUFFIX_TOKENS.contains su = true := by
      obtain ⟨p, hpfil, hpsnd⟩ := List.mem_map.mp hsu_mem
      exact hpsnd ▸ suffixObs_snd_mem rows p (List.mem_of_mem_filter hpfil)
    have hsu_ne : su ≠ "" := by
      intro he
      rw [he] at hsuf_tok
      exact absurd hsuf_tok (by decide)
    have hpre : preferredOf rows base = some su := by
      simp [preferredOf, hone]
    have hlook : assocLookup (preferredList rows) base = some su := by
      rw [assocLookup_preferredList]
      exact hpre
    have hne_pref : preferredList rows ≠ [] := by
      intro he
      rw [he] at hlook
      simp [assocLookup] at hlook
    have hnot_empty : (preferredList rows).isEmpty = false := by
      cases hp : preferredList rows with
      | nil => exact absurd hp hne_pref
      | cons a rest => rfl
    have happly : applyRouteSuffixes rows = rows.map (applyRow (preferredList rows)) := by
      simp [applyRouteSuffixes, hnot_empty]
    rw [happly, getD_map_of_lt _ rows i [] [] hi, applyRow_get _ _ _ hc, hv]
    simp only [applyCellVal]
    rw [hempty, hnum, hl]
    simp only [Bool.or_self, Bool.false_eq_true, if_false, hls]
    rw [hbase, hlook]
    simp [hsu_ne]
  · intro htwo
    have hpre : preferredOf rows base = none := by
      simp only [preferredOf]
      cases hd : distinctSuffixes rows base with
      | nil => rfl
      | cons x rest =>
        cases rest with
        | nil =>
          rw [hd] at htwo
          simp at htwo
        | cons y rest2 => rfl
    have hlook : assocLookup (preferredList rows) base = none := by
      rw [assocLookup_preferredList]
      exact hpre
    by_cases hp : (preferredList rows).isEmpty = true
    · have happly : applyRouteSuffixes rows = rows := by
        simp [applyRouteSuffixes, hp]
      rw [happly]
      exact hv
    · have happly : applyRouteSuffixes rows = rows.map (applyRow (preferredList rows)) := by
        simp [applyRouteSuffixes, hp]
      rw [happly, getD_map_of_lt _ rows i [] [] hi, applyRow_get _ _ _ hc, hv]
      simp only [applyCellVal]
      rw [hempty, hnum, hl]
      simp only [Bool.or_self, Bool.false_eq_true, if_false, hls]
      rw [hbase, hlook]
/-- Writing at an index not below the prefix length preserves the prefix. -/
theorem take_set_of_le {α : Type} (l : List α) (n m : Nat) (a : α) (h : m ≤ n) :
    (l.set n a).take m = l.take m := by
  induction l generalizing n m with
  | nil => simp
  | cons x xs ih =>
    cases n with
    | zero =>
      cases m with
      | zero => simp
      | succ m' => exact absurd h (by omega)
    | succ n' =>
      cases m with
      | zero => simp
      | succ m' =>
        simp only [List.set_cons_succ, List.take_succ_cons]
        rw [ih n' m' (by omega)]

/-- Heap-prefix preservation composes. -/
theorem heapExt_trans {h1 h2 h3 : Heap} (a : h2.take h1.length = h1)
    (b : h3.take h2.length = h2) : h3.take h1.length = h1 := by
  have hlen : h1.length ≤ h2.length := by
    conv_lhs => rw [← a]
    rw [List.length_take]
    omega
  have h4 : h3.take h1.length = (h3.take h2.length).take h1.length := by
    rw [List.take_take, Nat.min_eq_left hlen]
  rw [h4, b, a]

/-- A batch of writes at addresses beyond the prefix preserves the prefix. -/
theorem writeAll_take (h : Heap) (ps : List (Nat × Row)) (m : Nat)
    (hall : ∀ p ∈ ps, m ≤ p.1) : (writeAll h ps).take m = h.take m := by
  induction ps generalizing h with
  | nil => rfl
  | cons p rest ih =>
    rw [show writeAll h (p :: rest) = writeAll (heapSet h p.1 p.2) rest from rfl]
    rw [ih _ (fun q hq => hall q (List.mem_cons_of_mem _ hq))]
    exact take_set_of_le h p.1 m p.2 (hall p (List.mem_cons_self _ _))

/-- Allocation preserves the existing heap as a prefix. -/
theorem append_one_take (h : Heap) (r : Row) : (h ++ [r]).take h.length = h := by
  rw [List.take_append_of_le_length (Nat.le_refl _), List.take_length]

/-- The `refine_rows` loop never writes below the caller heap and returns only
freshly allocated addresses. -/
theorem refineLoopH_frame (cfg : RefinementConfig) (nh : Bool)
    (as : List Nat) (seen : List (List Value)) (h h' : Heap)
    (outs : List Nat) (rep : RefinementReport)
    (hok : refineLoopH cfg nh seen h as = .ok (h', outs, rep)) :
    h'.take h.length = h ∧ ∀ a ∈ outs, h.length ≤ a := by
  induction as generalizing seen h h' outs rep with
  | nil =>
    simp only [refineLoopH] at hok
    cases hok
    exact ⟨List.take_length _, by simp⟩
  | cons a rest ih =>
    have hset : ∀ r r2 : Row, (heapSet (h ++ [r]) h.length r2).take h.length = h := by
      intro r r2
      simp only [heapSet]
      rw [take_set_of_le _ _ _ _ (Nat.le_refl _)]
      exact append_one_take h r
    have hlen2 : ∀ r r2 : Row, (heapSet (h ++ [r]) h.length r2).length = h.length + 1 := by
      intro r r2
      simp [heapSet]
    simp only [refineLoopH] at hok
    split at hok
    all_goals try split at hok
    all_goals try split at hok
    all_goals
      first
      | (obtain ⟨⟨h2, outs', rep'⟩, hrec, heq⟩ := bindOk _ _ _ hok
         cases heq
         obtain ⟨hpre, hfresh⟩ := ih _ _ _ _ _ hrec
         refine ⟨heapExt_trans (append_one_take h _) hpre, fun x hx => ?_⟩
         have := hfresh x hx
         simp only [List.length_append, List.length_cons, List.length_nil] at this
         omega)
      | (obtain ⟨⟨row2, cd, cn, cb⟩, htr, heq1⟩ := bindOk _ _ _ hok
         obtain ⟨⟨h2, outs', rep'⟩, hrec, heq⟩ := bindOk _ _ _ heq1
         cases heq
         obtain ⟨hpre, hfresh⟩ := ih _ _ _ _ _ hrec
         refine ⟨heapExt_trans (hset _ row2) hpre, fun x hx => ?_⟩
         rcases List.mem_cons.mp hx with hx0 | hxr
         · omega
         · have := hfresh x hxr
           rw [hlen2 _ row2] at this
           omega)
/-- The boundary-filter loop never writes below the caller heap and its
buckets hold only freshly allocated addresses. -/
theorem filterLoopH_frame (b : PolygonBoundary) (latc lonc : String) (nh : Bool)
    (as : List Nat) (h h' : Heap) (inc exc inv : List Nat) (t : Nat)
    (hok : filterLoopH b latc lonc nh h as = some (h', inc, exc, inv, t)) :
    h'.take h.length = h ∧ ∀ x ∈ inc ++ exc ++ inv, h.length ≤ x := by
  induction as generalizing h h' inc exc inv t with
  | nil =>
    simp only [filterLoopH] at hok
    cases hok
    exact ⟨List.take_length _, by simp⟩
  | cons a rest ih =>
    simp only [filterLoopH] at hok
    split at hok
    all_goals try split at hok
    all_goals
      first
      | exact Option.noConfusion hok
      | (obtain ⟨⟨h2, inc', exc', inv', t'⟩, hrec, heq⟩ := bindSome _ _ _ hok
         obtain ⟨hpre, hfresh⟩ := ih _ _ _ _ _ _ hrec
         have hfr : ∀ y, y ∈ inc' ∨ y ∈ exc' ∨ y ∈ inv' → h.length + 1 ≤ y := by
           intro y hy
           have := hfresh y (by simp only [List.mem_append]; tauto)
           simpa using this
         first
         | (split at heq
            all_goals
              (cases heq
               refine ⟨heapExt_trans (append_one_take h _) hpre, fun x hx => ?_⟩
               simp only [List.cons_append, List.mem_cons, List.mem_append] at hx
               have hxle : x = h.length ∨ (x ∈ inc' ∨ x ∈ exc' ∨ x ∈ inv') := by tauto
               rcases hxle with rfl | hy
               · omega
               · have := hfr x hy
                 omega))
         | (cases heq
            refine ⟨heapExt_trans (append_one_take h _) hpre, fun x hx => ?_⟩
            simp only [List.cons_append, List.mem_cons, List.mem_append] at hx
            have hxle : x = h.length ∨ (x ∈ inc' ∨ x ∈ exc' ∨ x ∈ inv') := by tauto
            rcases hxle with rfl | hy
            · omega
            · have := hfr x hy
              omega))
/-- C10: neither `refine_rows` nor `filter_rows_by_boundary` mutates a
caller-supplied row object: the caller heap survives unchanged as a prefix,
and every row placed in an output collection lives at a freshly allocated
address (the Pass-2 in-place rewrite included). -/
theorem no_caller_row_mutation (cfg : RefinementConfig) (b : PolygonBoundary)
    (latCol lonCol : String) (h : Heap) (inputs : List Nat) (nh : Bool) :
    (∀ h' outs rep, refineRowsH cfg h inputs nh = .ok (h', outs, rep) →
      h'.take h.length = h ∧ ∀ a ∈ outs, h.length ≤ a) ∧
    (∀ h' inc exc inv rep,
      filterRowsByBoundaryH b latCol lonCol h inputs nh =
        some (h', inc, exc, inv, rep) →
      h'.take h.length = h ∧ ∀ a ∈ inc ++ exc ++ inv, h.length ≤ a) := by
  constructor
  · intro h' outs rep hok
    simp only [refineRowsH] at hok
    obtain ⟨⟨h1, outs1, rep1⟩, hloop, heq⟩ := bindOk _ _ _ hok
    cases heq
    obtain ⟨hpre, hfresh⟩ := refineLoopH_frame cfg nh inputs [] h h1 outs1 rep1 hloop
    refine ⟨?_, hfresh⟩
    rw [writeAll_take h1 _ h.length (fun p hp => hfresh p.1 (List.of_mem_zip hp).1)]
    exact hpre
  · intro h' inc exc inv rep hok
    simp only [filterRowsByBoundaryH] at hok
    cases hflt : filterLoopH b (normalizeHeader latCol) (normalizeHeader lonCol)
        nh h inputs with
    | none =>
      rw [hflt] at hok
      simp at hok
    | some r =>
      rw [hflt] at hok
      obtain ⟨h2, inc2, exc2, inv2, t2⟩ := r
      simp only [Option.map_some'] at hok
      cases hok
      exact filterLoopH_frame b _ _ nh inputs h _ _ _ _ _ hflt
/-- C4 counterexample: the unparsable value ` BAD DATE ` is stored as
`BAD DATE` — the original text is not left unchanged, it is trimmed. -/
theorem unparsable_date_counterexample :
    (refineRows ({ date_columns := ["Crash Date"] } : RefinementConfig).normalized
        [[("Crash Date", .str " BAD DATE ")]] true).map Prod.fst =
      .ok [[("crash_date", .str "BAD DATE")]] ∧
    Value.str "BAD DATE" ≠ Value.str " BAD DATE " :=
  ⟨by decide, by decide⟩

/-- C4 witness: the amended statement evaluated at ` BAD DATE `. -/
theorem unparsable_date_trimmed_witness :
    (refineRows ({ date_columns := ["Crash Date"] } : RefinementConfig).normalized
        [[("Crash Date", Value.str " BAD DATE ")]] true).map Prod.fst =
      .ok [[("crash_date", Value.str (pyStrip " BAD DATE "))]] :=
  unparsable_date_trimmed " BAD DATE " (by decide) (by decide) (by decide)

/-- C6 witness: the `BROAD ST` and `BROAD` scenario — the bare row ends as
`BROAD ST`. -/
theorem route_suffix_pass2_witness :
    rowGet ((applyRouteSuffixes
        [[("roadway_name", Value.str "BROAD ST")],
         [("roadway_name", Value.str "BROAD")]]).getD 1 [])
      "roadway_name" = some (Value.str ("BROAD" ++ " " ++ "ST")) :=
  (route_suffix_pass2
    [[("roadway_name", .str "BROAD ST")], [("roadway_name", .str "BROAD")]]
    "BROAD" "ST" 1 "roadway_name" "BROAD" "BROAD"
    (by decide) (by decide) (by decide) (by decide) (by decide) (by decide)
    (by decide) (by decide)).1 (by decide)

/-- C10 witness: one-row refine and filter calls on concrete heaps. -/
theorem no_caller_row_mutation_witness :
    (([[("lat", Value.str "1")], [("lat", Value.str "1")]] : Heap).take
        ([[("lat", Value.str "1")]] : Heap).length = [[("lat", Value.str "1")]] ∧
      ∀ a ∈ [1], ([[("lat", Value.str "1")]] : Heap).length ≤ a) ∧
    (([[("Lat", Value.str "1"), ("Lon", Value.str "0")],
       [("lat", Value.str "1"), ("lon", Value.str "0")]] : Heap).take
        ([[("Lat", Value.str "1"), ("Lon", Value.str "0")]] : Heap).length =
        [[("Lat", Value.str "1"), ("Lon", Value.str "0")]] ∧
      ∀ a ∈ ([1] ++ [] ++ [] : List Nat),
        ([[("Lat", Value.str "1"), ("Lon", Value.str "0")]] : Heap).length ≤ a) :=
  ⟨(no_caller_row_mutation {}
      { outer := [(⟨-1,1⟩, ⟨0,1⟩), (⟨1,1⟩, ⟨0,1⟩), (⟨1,1⟩, ⟨2,1⟩),
                  (⟨-1,1⟩, ⟨2,1⟩), (⟨-1,1⟩, ⟨0,1⟩)] }
      "Lat" "Lon" [[("lat", Value.str "1")]] [0] true).1
      [[("lat", Value.str "1")], [("lat", Value.str "1")]] [1]
      ⟨1, 1, 0, 0, 0, 0, 0⟩ (by rfl),
   (no_caller_row_mutation {}
      { outer := [(⟨-1,1⟩, ⟨0,1⟩), (⟨1,1⟩, ⟨0,1⟩), (⟨1,1⟩, ⟨2,1⟩),
                  (⟨-1,1⟩, ⟨2,1⟩), (⟨-1,1⟩, ⟨0,1⟩)] }
      "Lat" "Lon" [[("Lat", Value.str "1"), ("Lon", Value.str "0")]] [0] true).2
      [[("Lat", Value.str "1"), ("Lon", Value.str "0")],
       [("lat", Value.str "1"), ("lon", Value.str "0")]]
      [1] [] [] ⟨1, 1, 0, 0⟩ (by rfl)⟩
end CrashData
